import Mathlib

/-!
# Bootloader/main.c : DFU transfer callbacks and boot decision

A shallow embedding of `setup_read`, `setup_write`, `finish_write`,
`init_usb_bootloader`, `jump_to_app` and `main` of `src/Bootloader/main.c`.

* `size_t` / `uintptr_t` values are natural numbers; every C addition and
  subtraction on them is reduced modulo `2 ^ wordBits`.
* The file-scope variables `staging`, `dfu_ctx` and the function-static `last`
  are the fields of `State`.
* A `void *buf` that is only read is passed as the bytes it points to.
* `Chip_validation`, `flash_get_staging_area` and `flash_program_sector` are not
  part of the file: they are the fields of `Env`, and every call of one of them
  is recorded, in order, in `State.trace`.
* Linker symbols and header constants that the file uses but does not define
  are the fields of `Target`.
-/

namespace Bootloader

/-- The two `#if defined(...)` branches of the file. -/
inductive Chip
  | kinetis
  | sam
  deriving DecidableEq, Repr

/-- The `enum dfu_status` values that the file returns. -/
inductive DfuStatus
  | OK
  | errADDRESS
  | errFILE
  deriving DecidableEq, Repr

/-- The values of `dfu_ctx.verified`. -/
inductive DfuValidation
  | UNKNOWN
  | PENDING
  | OK
  | FAILED
  deriving DecidableEq, Repr

/-- Link-time and header constants used by the file. -/
structure Target where
  /-- which `#if` branch is compiled -/
  chip : Chip
  /-- width of `size_t` and `uintptr_t` -/
  wordBits : Nat
  /-- the address `&_app_rom` -/
  app_rom : Nat
  /-- the address `&_app_rom_end` -/
  app_rom_end : Nat
  /-- the constant `USB_DFU_TRANSFER_SIZE`, also `sizeof(staging)` -/
  USB_DFU_TRANSFER_SIZE : Nat
  FTFL_FSTAT_RDCOLERR : Int
  FTFL_FSTAT_ACCERR : Int
  FTFL_FSTAT_FPVIOL : Int
  FTFL_FSTAT_MGSTAT0 : Int
  FLASH_RC_OK : Int

/-- Calls that leave the file, in the order they are made. -/
inductive Event
  /-- `Chip_validation( buf )` -/
  | validate (buf : List Nat)
  /-- `flash_get_staging_area( addr, size )` -/
  | stage (addr size : Nat)
  /-- `memcpy( target, buf, len )` into the area returned by `flash_get_staging_area` -/
  | copy (data : List Nat)
  /-- `flash_program_sector( addr, ..., size )`, with the bytes it programs from -/
  | program (addr : Nat) (data : List Nat) (size : Nat)
  deriving DecidableEq, Repr

/-- The external services. Each one sees the calls made so far, so its answer may
change from one call to the next. -/
structure Env where
  /-- return value of `Chip_validation` -/
  Chip_validation : List Event → List Nat → Int
  /-- whether `flash_get_staging_area` returns a non-null pointer -/
  flash_get_staging_area : List Event → Nat → Nat → Bool
  /-- return value of `flash_program_sector` -/
  flash_program_sector : List Event → Nat → List Nat → Nat → Int

/-- The `struct dfu_ctx` fields that the file touches. -/
structure DfuCtx where
  verified : DfuValidation
  off : Nat
  deriving DecidableEq, Repr

/-- Mutable state of the file. -/
structure State where
  /-- `static char staging[ USB_DFU_TRANSFER_SIZE ]` -/
  staging : List Nat
  /-- `static int last` of `setup_write` -/
  last : Int
  /-- `struct dfu_ctx dfu_ctx` -/
  dfu_ctx : DfuCtx
  /-- contents of the area that `flash_get_staging_area` hands out (Kinetis) -/
  flash_stage : List Nat
  /-- the external calls made so far -/
  trace : List Event
  deriving DecidableEq, Repr

/-- Where a `void *` out-parameter points after a callback. -/
inductive BufPtr
  /-- an address of the flash -/
  | addr (a : Nat)
  /-- the array `staging` -/
  | staging
  deriving DecidableEq, Repr

/-- Unsigned addition of two machine words. -/
def wadd (t : Target) (a b : Nat) : Nat := (a + b) % 2 ^ t.wordBits

/-- Unsigned subtraction of two machine words. -/
def wsub (t : Target) (a b : Nat) : Nat :=
  (a % 2 ^ t.wordBits + (2 ^ t.wordBits - b % 2 ^ t.wordBits)) % 2 ^ t.wordBits

/-- Record one external call. -/
def State.log (s : State) (e : Event) : State := { s with trace := s.trace ++ [e] }

/-- `setup_read( off, &len, &buf )`: status, `*len`, `*buf`. -/
def setup_read (t : Target) (off : Nat) : DfuStatus × Nat × BufPtr :=
  let buf := wadd t t.app_rom off
  let len :=
    if wadd t buf t.USB_DFU_TRANSFER_SIZE > t.app_rom_end
    then wadd t (wsub t t.app_rom_end buf) 1
    else t.USB_DFU_TRANSFER_SIZE
  (DfuStatus.OK, len, BufPtr.addr buf)

/-- `setup_write( off, len, &buf )`: new state, status, and the value stored to
`*buf` (`none` when `*buf` is not written). -/
def setup_write (t : Target) (s : State) (off len : Nat) :
    State × DfuStatus × Option BufPtr :=
  if len > t.USB_DFU_TRANSFER_SIZE then
    (s, DfuStatus.errADDRESS, none)
  else
    let s1 := if off = 0 then { s with last := 0 } else s
    if s1.last ≠ 0 ∧ len ≠ 0 then
      (s1, DfuStatus.errADDRESS, none)
    else
      let s2 :=
        if len ≠ t.USB_DFU_TRANSFER_SIZE then
          { s1 with last := 1, staging := List.replicate t.USB_DFU_TRANSFER_SIZE 0xff }
        else s1
      (s2, DfuStatus.OK, some BufPtr.staging)

/-- The `switch` on the result of `flash_program_sector`, `_kinetis_` branch. -/
def kinetis_status (t : Target) (r : Int) : DfuStatus :=
  if r = t.FTFL_FSTAT_RDCOLERR ∨ r = t.FTFL_FSTAT_ACCERR ∨ r = t.FTFL_FSTAT_FPVIOL then
    DfuStatus.errADDRESS
  else if r = t.FTFL_FSTAT_MGSTAT0 then
    DfuStatus.errADDRESS
  else
    DfuStatus.OK

/-- The `switch` on the result of `flash_program_sector`, `_sam_` branch. -/
def sam_status (t : Target) (r : Int) : DfuStatus :=
  if r = t.FLASH_RC_OK then DfuStatus.OK else DfuStatus.errADDRESS

/-- The programming step of `finish_write` (lines 198 to 231), reached once the
bounds check has passed. -/
def flash_step (t : Target) (env : Env) (s : State) (buf : List Nat) (off len : Nat) :
    State × DfuStatus :=
  let addr := wadd t off t.app_rom
  match t.chip with
  | Chip.kinetis =>
    let target := env.flash_get_staging_area s.trace addr t.USB_DFU_TRANSFER_SIZE
    let s1 := s.log (Event.stage addr t.USB_DFU_TRANSFER_SIZE)
    if target = false then
      (s1, DfuStatus.errADDRESS)
    else
      let s2 := { s1 with flash_stage := buf.take len ++ s1.flash_stage.drop len }.log
        (Event.copy (buf.take len))
      let r := env.flash_program_sector s2.trace addr s2.flash_stage t.USB_DFU_TRANSFER_SIZE
      (s2.log (Event.program addr s2.flash_stage t.USB_DFU_TRANSFER_SIZE), kinetis_status t r)
  | Chip.sam =>
    let r := env.flash_program_sector s.trace addr s.staging t.USB_DFU_TRANSFER_SIZE
    (s.log (Event.program addr s.staging t.USB_DFU_TRANSFER_SIZE), sam_status t r)

/-- The bounds check and what follows it in `finish_write` (lines 192 to 231). -/
def bounds_then_flash (t : Target) (env : Env) (s : State) (buf : List Nat) (off len : Nat) :
    State × DfuStatus :=
  if wadd t (wadd t off t.app_rom) len > t.app_rom_end then
    (s, DfuStatus.errADDRESS)
  else
    flash_step t env s buf off len

/-- `finish_write( buf, off, len )`: new state and status. -/
def finish_write (t : Target) (env : Env) (s : State) (buf : List Nat) (off len : Nat) :
    State × DfuStatus :=
  if len = 0 then
    (s, DfuStatus.OK)
  else if off = 0 ∧ s.dfu_ctx.verified = DfuValidation.UNKNOWN then
    let s0 := { s with dfu_ctx := { s.dfu_ctx with off := 0 } }
    let v := env.Chip_validation s0.trace buf
    let s1 := s0.log (Event.validate buf)
    if v = 0 then
      bounds_then_flash t env
        { s1 with dfu_ctx := { s1.dfu_ctx with verified := DfuValidation.OK } } buf off len
    else if v = -1 then
      ({ s1 with dfu_ctx := { s1.dfu_ctx with verified := DfuValidation.FAILED } },
        DfuStatus.errFILE)
    else
      ({ s1 with dfu_ctx := { s1.dfu_ctx with verified := DfuValidation.PENDING } },
        DfuStatus.OK)
  else
    bounds_then_flash t env s buf off len

/-- `init_usb_bootloader( config )`: the effect on the state of this file. -/
def init_usb_bootloader (s : State) : State :=
  { s with dfu_ctx := { s.dfu_ctx with verified := DfuValidation.UNKNOWN } }

/-- Whether an external call is a call of the validator. -/
def Event.isValidate : Event → Bool
  | Event.validate _ => true
  | _ => false

/-- size of the application region, both ends included -/
def region_size (t : Target) : Nat := t.app_rom_end - t.app_rom + 1

/-- The `(address, size)` pairs handed to `flash_program_sector`, in call order. -/
def programmed (tr : List Event) : List (Nat × Nat) :=
  tr.filterMap fun e =>
    match e with
    | Event.program a _ n => some (a, n)
    | _ => none

/-- Whether the byte range `[p.1, p.1 + p.2)` lies in the application region
`[&_app_rom, &_app_rom_end]`, both ends included. -/
def in_region (t : Target) (p : Nat × Nat) : Bool :=
  decide (t.app_rom ≤ p.1) && decide (p.1 + p.2 ≤ t.app_rom_end + 1)

/-- The reference definition of `setup_read` in the words of the specification:
a full chunk at `region_start + o` while `o + chunk_size <= region_size`, and
otherwise the rest of the region, `region_end - (region_start + o) + 1` bytes. -/
def setup_read_spec (t : Target) (o : Nat) : DfuStatus × Nat × BufPtr :=
  if o + t.USB_DFU_TRANSFER_SIZE ≤ region_size t then
    (DfuStatus.OK, t.USB_DFU_TRANSFER_SIZE, BufPtr.addr (t.app_rom + o))
  else
    (DfuStatus.OK, t.app_rom_end - (t.app_rom + o) + 1, BufPtr.addr (t.app_rom + o))

/-- One callback invocation by the DFU engine. -/
inductive Call
  | setup_read (off : Nat)
  | setup_write (off len : Nat)
  | finish_write (buf : List Nat) (off len : Nat)
  deriving DecidableEq, Repr

/-- Perform one callback: new state and returned status. -/
def step (t : Target) (env : Env) (s : State) : Call → State × DfuStatus
  | Call.setup_read off => (s, (setup_read t off).1)
  | Call.setup_write off len => ((setup_write t s off len).1, (setup_write t s off len).2.1)
  | Call.finish_write buf off len => finish_write t env s buf off len

/-- Perform a sequence of callbacks, oldest first. -/
def run (t : Target) (env : Env) (s : State) : List Call → State
  | [] => s
  | c :: cs => run t env (step t env s c).1 cs

/-- Whether a callback is a `setup_write` at offset 0. -/
def Call.restarts : Call → Bool
  | Call.setup_write off _ => decide (off = 0)
  | _ => false

/-- A Kinetis build: 8 KiB of bootloader below the application in a 128 KiB flash,
1 KiB sectors, 32 bit words, the `FTFL_FSTAT` bit masks of the K20 family. -/
def k20 : Target :=
  { chip := Chip.kinetis, wordBits := 32, app_rom := 0x2000, app_rom_end := 0x1ffff,
    USB_DFU_TRANSFER_SIZE := 1024,
    FTFL_FSTAT_RDCOLERR := 0x40, FTFL_FSTAT_ACCERR := 0x20, FTFL_FSTAT_FPVIOL := 0x10,
    FTFL_FSTAT_MGSTAT0 := 0x01, FLASH_RC_OK := 0 }

/-- A SAM build: application at `0x406000` up to the end of a 512 KiB flash at
`0x400000`, 512 byte pages, 32 bit words. -/
def sam4s : Target :=
  { chip := Chip.sam, wordBits := 32, app_rom := 0x406000, app_rom_end := 0x47ffff,
    USB_DFU_TRANSFER_SIZE := 512,
    FTFL_FSTAT_RDCOLERR := 0x40, FTFL_FSTAT_ACCERR := 0x20, FTFL_FSTAT_FPVIOL := 0x10,
    FTFL_FSTAT_MGSTAT0 := 0x01, FLASH_RC_OK := 0 }

/-- External services that always answer the same: validator result `v`,
staging area available iff `st`, programmer result `r`. -/
def Env.const (v : Int) (st : Bool) (r : Int) : Env :=
  { Chip_validation := fun _ _ => v,
    flash_get_staging_area := fun _ _ _ => st,
    flash_program_sector := fun _ _ _ _ => r }

/-- A state as at the start of a session: `staging` zeroed, the programmer's staging
area erased, no external call made yet, and the given validation status. -/
def State.idle (t : Target) (v : DfuValidation) : State :=
  { staging := List.replicate t.USB_DFU_TRANSFER_SIZE 0, last := 0,
    dfu_ctx := { verified := v, off := 0 },
    flash_stage := List.replicate t.USB_DFU_TRANSFER_SIZE 0xff, trace := [] }

/-- A buffer of `n` zero bytes. -/
def zeros (n : Nat) : List Nat := List.replicate n 0

/-- The transport copying the received bytes `d` to the start of `staging`, the
buffer that `setup_write` yielded. -/
def transport_copy (s : State) (d : List Nat) : State :=
  { s with staging := d ++ s.staging.drop d.length }

/-- The bytes handed to `flash_program_sector`, one entry per call, in call order. -/
def programmed_data (tr : List Event) : List (List Nat) :=
  tr.filterMap fun e =>
    match e with
    | Event.program _ d _ => some d
    | _ => none

/-- The number of `Chip_validation` calls recorded in a trace. -/
def validations (tr : List Event) : Nat := (tr.filter Event.isValidate).length

/-- One chunk as the DFU engine downloads it: `setup_write( off, len )`, then, when
that is accepted, the transport copies the `len` received bytes `d` to the yielded
`staging`, then `finish_write( staging, off, len )`. -/
def download_chunk (t : Target) (env : Env) (s : State) (off : Nat) (d : List Nat) :
    State × DfuStatus :=
  let r := setup_write t s off d.length
  if r.2.1 = DfuStatus.OK then
    let s1 := transport_copy r.1 d
    finish_write t env s1 s1.staging off d.length
  else
    (r.1, r.2.1)

/-! ### `main`: boot decision and control transfer

Debug output (`print`, `printHex`, `printNL`) is not recorded. The hardware state
`Hw` is the state that the `if` of `main` reads, after `Chip_reset` and
`Device_reset` have returned. -/

/-- Header constants and build flags used by `main`. -/
structure BootConsts where
  /-- the bytes of `sys_reset_to_loader_magic`; `sizeof` is their number -/
  sys_reset_to_loader_magic : List Nat
  RSTC_SR_RSTTYP_Msk : Nat
  RSTC_SR_RSTTYP_UserReset : Nat
  RSTC_SR_RSTTYP_WatchdogReset : Nat
  /-- the slow clock frequency `BOARD_FREQ_SLCK_XTAL` of `osc.h` -/
  BOARD_FREQ_SLCK_XTAL : Nat
  /-- whether the build has `defined(DEBUG) && defined(JLINK)` -/
  DEBUG_JLINK : Bool

/-- `WDT_TICK_US`, line 33. -/
def WDT_TICK_US (k : BootConsts) : Nat := 128 * 1000000 / k.BOARD_FREQ_SLCK_XTAL

/-- `WDT_MAX_VALUE`, line 34. -/
def WDT_MAX_VALUE : Nat := 4095

/-- A value written to the SAM watchdog mode register `WDT_MR`: the arguments of
`WDT_MR_WDV` and `WDT_MR_WDD`, and for each flag whether it is in the `|` of the
written value. -/
structure WdtMode where
  /-- argument of `WDT_MR_WDV`, the counter value -/
  WDV : Nat
  /-- argument of `WDT_MR_WDD`, the delta value -/
  WDD : Nat
  /-- `WDT_MR_WDFIEN`: a watchdog fault raises an interrupt -/
  WDFIEN : Bool
  /-- `WDT_MR_WDRSTEN`: a watchdog fault resets the chip -/
  WDRSTEN : Bool
  /-- `WDT_MR_WDDBGHLT` -/
  WDDBGHLT : Bool
  /-- `WDT_MR_WDIDLEHLT` -/
  WDIDLEHLT : Bool
  /-- `WDT_MR_WDDIS`: the watchdog is disabled -/
  WDDIS : Bool
  deriving DecidableEq, Repr

/-- Hardware state read and written by `main`. -/
structure Hw where
  /-- Kinetis reset status registers -/
  RCM_SRS0 : Nat
  RCM_SRS1 : Nat
  /-- SAM reset controller status register -/
  REG_RSTC_SR : Nat
  /-- the 32 bit word stored at an address of the flash -/
  word : Nat → Nat
  /-- the bytes of the always-powered register file: `VBAT` (Kinetis) or `GPBR` (SAM) -/
  backup : List Nat

/-- The calls and register writes of `main`, in program order. -/
inductive Effect
  | uart_serial_setup
  | Chip_reset
  | Device_reset
  /-- `WDOG_UNLOCK = WDOG_UNLOCK_SEQ1` -/
  | WDOG_UNLOCK_SEQ1
  /-- `WDOG_UNLOCK = WDOG_UNLOCK_SEQ2` -/
  | WDOG_UNLOCK_SEQ2
  /-- `WDOG_TOVALH = v` -/
  | WDOG_TOVALH (v : Nat)
  /-- `WDOG_TOVALL = v` -/
  | WDOG_TOVALL (v : Nat)
  /-- `WDOG_STCTRLH |= WDOG_STCTRLH_WDOGEN` -/
  | WDOG_STCTRLH_WDOGEN
  /-- `WDT->WDT_MR = m`, the SAM watchdog mode register -/
  | WDT_MR (m : WdtMode)
  /-- `SCB_VTOR = addr` -/
  | SCB_VTOR (addr : Nat)
  /-- `ldr sp, [addr, #0]`, with the value loaded -/
  | ldr_sp (v : Nat)
  /-- `ldr pc, [addr, #4]`, with the value loaded -/
  | ldr_pc (v : Nat)
  | Chip_setup
  | Device_setup
  | flash_prepare_flashing
  | dfu_usb_init
  deriving DecidableEq, Repr

/-- How `main` ends: in the application, or in the endless poll loop. -/
inductive Outcome
  /-- `jump_to_app` has loaded the stack pointer and the program counter -/
  | jumped (sp pc : Nat)
  /-- the `for (;;)` main loop of update mode has been entered -/
  | polling
  deriving DecidableEq, Repr

/-- What a run of `main` leaves. -/
structure Boot where
  hw : Hw
  effects : List Effect
  outcome : Outcome

/-- `memcmp( a, b, n )` on two areas that hold at least `n` bytes each. -/
def memcmp : List Nat → List Nat → Nat → Int
  | _, _, 0 => 0
  | x :: xs, y :: ys, n + 1 => if x = y then memcmp xs ys n else (x : Int) - (y : Int)
  | _, _, _ + 1 => 0

/-- The condition of the `if` in `main`: true when update mode is selected. -/
def update_mode (t : Target) (k : BootConsts) (hw : Hw) : Bool :=
  match t.chip with
  | Chip.kinetis =>
    decide (hw.RCM_SRS0 &&& 0x40 ≠ 0)
      || decide (hw.RCM_SRS0 &&& 0x20 ≠ 0)
      || decide (hw.RCM_SRS1 &&& 0x02 ≠ 0)
      || decide (hw.word t.app_rom = 0xffffffff)
      || decide (memcmp hw.backup k.sys_reset_to_loader_magic
            k.sys_reset_to_loader_magic.length = 0)
  | Chip.sam =>
    decide (hw.REG_RSTC_SR &&& k.RSTC_SR_RSTTYP_Msk = k.RSTC_SR_RSTTYP_UserReset)
      || decide (hw.REG_RSTC_SR &&& k.RSTC_SR_RSTTYP_Msk = k.RSTC_SR_RSTTYP_WatchdogReset)
      || decide (hw.word t.app_rom = 0xffffffff)
      || decide (memcmp hw.backup k.sys_reset_to_loader_magic
            k.sys_reset_to_loader_magic.length = 0)

/-- `GPBR->SYS_GPBR[ pos ] = 0x00000000`: the four bytes of register `pos`. -/
def gpbr_write_zero (b : List Nat) (pos : Nat) : List Nat :=
  (((b.set (4 * pos) 0).set (4 * pos + 1) 0).set (4 * pos + 2) 0).set (4 * pos + 3) 0

/-- The bootloader branch of `main`: the marker is overwritten with zeros.
Kinetis: `memset( &VBAT, 0, sizeof(magic) )`. SAM: the loop
`for ( pos = 0; pos <= sizeof(magic) / sizeof(GPBR->SYS_GPBR[0]); pos++ )`. -/
def clear_marker (t : Target) (k : BootConsts) (b : List Nat) : List Nat :=
  match t.chip with
  | Chip.kinetis =>
    List.replicate k.sys_reset_to_loader_magic.length 0
      ++ b.drop k.sys_reset_to_loader_magic.length
  | Chip.sam =>
    (List.range (k.sys_reset_to_loader_magic.length / 4 + 1)).foldl gpbr_write_zero b

/-- The watchdog set-up of the firmware branch of `main` (lines 309 to 313 and
340 to 345). -/
def arm_watchdog (t : Target) (k : BootConsts) : List Effect :=
  match t.chip with
  | Chip.kinetis =>
    [Effect.WDOG_UNLOCK_SEQ1, Effect.WDOG_UNLOCK_SEQ2, Effect.WDOG_TOVALH 0,
      Effect.WDOG_TOVALL 1000, Effect.WDOG_STCTRLH_WDOGEN]
  | Chip.sam =>
    if k.DEBUG_JLINK then
      [Effect.WDT_MR
        { WDV := 1000000 / WDT_TICK_US k, WDD := WDT_MAX_VALUE, WDFIEN := true,
          WDRSTEN := false, WDDBGHLT := true, WDIDLEHLT := true, WDDIS := false }]
    else
      [Effect.WDT_MR
        { WDV := 1000000 / WDT_TICK_US k, WDD := WDT_MAX_VALUE, WDFIEN := false,
          WDRSTEN := true, WDDBGHLT := true, WDIDLEHLT := true, WDDIS := false }]

/-- What follows the `if` of `main` in update mode, up to the main loop. -/
def update_mode_steps (t : Target) : List Effect :=
  match t.chip with
  | Chip.kinetis =>
    [Effect.Chip_setup, Effect.Device_setup, Effect.flash_prepare_flashing, Effect.dfu_usb_init]
  | Chip.sam => [Effect.Chip_setup, Effect.Device_setup, Effect.dfu_usb_init]

/-- `main()`, with `jump_to_app` inlined: `addr` is `&_app_rom` as `uint32_t`. -/
def main (t : Target) (k : BootConsts) (hw : Hw) : Boot :=
  let early := [Effect.uart_serial_setup, Effect.Chip_reset, Effect.Device_reset]
  if update_mode t k hw then
    { hw := { hw with backup := clear_marker t k hw.backup },
      effects := early ++ update_mode_steps t,
      outcome := Outcome.polling }
  else
    let addr := t.app_rom % 2 ^ 32
    { hw := hw,
      effects := early ++ arm_watchdog t k
        ++ [Effect.SCB_VTOR addr, Effect.ldr_sp (hw.word addr),
            Effect.ldr_pc (hw.word ((addr + 4) % 2 ^ 32))],
      outcome := Outcome.jumped (hw.word addr) (hw.word ((addr + 4) % 2 ^ 32)) }

/-- External reset pin flagged: bit 6 of `RCM_SRS0` (Kinetis), reset type "user
reset" in `REG_RSTC_SR` (SAM). -/
def pin_reset (t : Target) (k : BootConsts) (hw : Hw) : Bool :=
  match t.chip with
  | Chip.kinetis => hw.RCM_SRS0.testBit 6
  | Chip.sam => decide (hw.REG_RSTC_SR &&& k.RSTC_SR_RSTTYP_Msk = k.RSTC_SR_RSTTYP_UserReset)

/-- Watchdog time-out reset flagged: bit 5 of `RCM_SRS0` (Kinetis), reset type
"watchdog reset" in `REG_RSTC_SR` (SAM). -/
def watchdog_reset (t : Target) (k : BootConsts) (hw : Hw) : Bool :=
  match t.chip with
  | Chip.kinetis => hw.RCM_SRS0.testBit 5
  | Chip.sam =>
    decide (hw.REG_RSTC_SR &&& k.RSTC_SR_RSTTYP_Msk = k.RSTC_SR_RSTTYP_WatchdogReset)

/-- Core lock-up flagged: bit 1 of `RCM_SRS1`, Kinetis only. -/
def core_lockup (t : Target) (hw : Hw) : Bool :=
  match t.chip with
  | Chip.kinetis => hw.RCM_SRS1.testBit 1
  | Chip.sam => false

/-- The first word of the application region reads as erased flash. -/
def blank_flash (t : Target) (hw : Hw) : Bool := decide (hw.word t.app_rom = 0xffffffff)

/-- The persisted marker equals the magic pattern. -/
def marker_is_magic (k : BootConsts) (hw : Hw) : Bool :=
  decide (hw.backup.take k.sys_reset_to_loader_magic.length = k.sys_reset_to_loader_magic)

/-- The boot decision in the words of the specification: the disjunction of the
five conditions, each sufficient for update mode. -/
def update_mode_spec (t : Target) (k : BootConsts) (hw : Hw) : Bool :=
  pin_reset t k hw || watchdog_reset t k hw || core_lockup t hw || blank_flash t hw
    || marker_is_magic k hw

/-- The magic pattern, the SAM reset type masks and a 32768 Hz slow clock, used in
the examples; a build without `DEBUG`. -/
def consts : BootConsts :=
  { sys_reset_to_loader_magic :=
      [0xff, 0x00, 0x7f, 0x52, 0x45, 0x53, 0x45, 0x54, 0x20, 0x54, 0x4f, 0x20,
       0x4c, 0x4f, 0x41, 0x44, 0x45, 0x52, 0x7f, 0x00, 0xff, 0x00],
    RSTC_SR_RSTTYP_Msk := 0x700,
    RSTC_SR_RSTTYP_UserReset := 0x400,
    RSTC_SR_RSTTYP_WatchdogReset := 0x200,
    BOARD_FREQ_SLCK_XTAL := 32768,
    DEBUG_JLINK := false }

/-- A flash holding an application: stack pointer `0x20002000` in the first word of
the region at `a`, entry point `0x2411` in the second, erased elsewhere. -/
def app_flash (a : Nat) : Nat → Nat :=
  fun x => if x = a then 0x20002000 else if x = a + 4 then 0x2411 else 0xffffffff

/-- Hardware after a power-on reset with an application flashed at `a` and the
given 32 bytes in the backup register file. -/
def Hw.power_on (a : Nat) (backup : List Nat) : Hw :=
  { RCM_SRS0 := 0x82, RCM_SRS1 := 0, REG_RSTC_SR := 0, word := app_flash a, backup := backup }

/-! ## Machine arithmetic -/

theorem wadd_of_lt (t : Target) {a b : Nat} (h : a + b < 2 ^ t.wordBits) :
    wadd t a b = a + b := by
  unfold wadd
  exact Nat.mod_eq_of_lt h

theorem wsub_of_le (t : Target) {a b : Nat} (hb : b ≤ a) (ha : a < 2 ^ t.wordBits) :
    wsub t a b = a - b := by
  unfold wsub
  have hb2 : b < 2 ^ t.wordBits := Nat.lt_of_le_of_lt hb ha
  rw [Nat.mod_eq_of_lt ha, Nat.mod_eq_of_lt hb2]
  have e : a + (2 ^ t.wordBits - b) = (a - b) + 2 ^ t.wordBits := by omega
  rw [e, Nat.add_mod_right]
  exact Nat.mod_eq_of_lt (by omega)

/-! ## finish_write -/

theorem finish_write_zero (t : Target) (env : Env) (s : State) (buf : List Nat) (off : Nat) :
    finish_write t env s buf off 0 = (s, DfuStatus.OK) := by
  simp [finish_write]

/-- A call that is not the first-chunk key check goes straight to the bounds check. -/
theorem finish_write_no_check (t : Target) (env : Env) (s : State) (buf : List Nat)
    (off len : Nat) (hlen : len ≠ 0)
    (h : ¬ (off = 0 ∧ s.dfu_ctx.verified = DfuValidation.UNKNOWN)) :
    finish_write t env s buf off len = bounds_then_flash t env s buf off len := by
  simp only [finish_write, hlen, h, if_false]

theorem flash_step_programmed (t : Target) (env : Env) (s : State) (buf : List Nat)
    (off len : Nat) :
    ∀ p ∈ programmed (flash_step t env s buf off len).1.trace,
      p ∈ programmed s.trace ∨ p = (wadd t off t.app_rom, t.USB_DFU_TRANSFER_SIZE) := by
  intro p hp
  unfold flash_step at hp
  cases hc : t.chip <;> simp only [hc] at hp
  · split_ifs at hp
    · simp [State.log, programmed, List.filterMap_append] at hp
      exact Or.inl (by simpa [programmed] using hp)
    · simp [State.log, programmed, List.filterMap_append] at hp
      rcases hp with hp | hp
      · exact Or.inl (by simpa [programmed] using hp)
      · exact Or.inr hp
  · simp [State.log, programmed, List.filterMap_append] at hp
    rcases hp with hp | hp
    · exact Or.inl (by simpa [programmed] using hp)
    · exact Or.inr hp

/-- What the bounds check does achieve: a chunk of at least `chunk_size` bytes whose
end address `&_app_rom + off + len` fits a machine word is programmed only inside
the application region. -/
theorem full_chunk_programs_inside (t : Target) (env : Env) (s : State) (buf : List Nat)
    (off len : Nat) (hfull : t.USB_DFU_TRANSFER_SIZE ≤ len)
    (hword : t.app_rom + off + len < 2 ^ t.wordBits) :
    ∀ p ∈ programmed (bounds_then_flash t env s buf off len).1.trace,
      p ∈ programmed s.trace ∨ in_region t p = true := by
  intro p hp
  have h1 : wadd t off t.app_rom = off + t.app_rom := wadd_of_lt t (by omega)
  have h2 : wadd t (off + t.app_rom) len = off + t.app_rom + len := wadd_of_lt t (by omega)
  unfold bounds_then_flash at hp
  rw [h1, h2] at hp
  split_ifs at hp with hc
  · exact Or.inl hp
  · rcases flash_step_programmed t env s buf off len p hp with h | h
    · exact Or.inl h
    · right
      rw [h, h1]
      simp only [in_region, Bool.and_eq_true, decide_eq_true_eq]
      omega

/-- C1, evaluated where it fails. On the Kinetis build with verification Ok,
`finish_write( buf, 0xffffe000, 1024 )` passes the bounds check because
`off + &_app_rom + len` wraps to `0x400`; the programmer is then called for the
1024 bytes at address 0, below `&_app_rom = 0x2000`, and the status is OK. On the
SAM build `finish_write( buf, 0x79ffe, 1 )` passes the check with `len = 1` and
programs 512 bytes at `0x47fffe`, past `&_app_rom_end = 0x47ffff`. -/
theorem C1_programs_outside_region :
    (finish_write k20 (Env.const 0 true 0) (State.idle k20 DfuValidation.OK) (zeros 1024) 0xffffe000 1024).2
        = DfuStatus.OK
    ∧ programmed
        (finish_write k20 (Env.const 0 true 0) (State.idle k20 DfuValidation.OK) (zeros 1024) 0xffffe000 1024).1.trace
        = [(0, 1024)]
    ∧ in_region k20 (0, 1024) = false
    ∧ programmed
        (finish_write sam4s (Env.const 0 true 0) (State.idle sam4s DfuValidation.OK) (zeros 1) 0x79ffe 1).1.trace
        = [(0x47fffe, 512)]
    ∧ in_region sam4s (0x47fffe, 512) = false := by
  refine ⟨by decide, by decide, by decide, by decide, by decide⟩

/-- The bounds check rejects every chunk whose end address, computed without
wrap-around, is above `&_app_rom_end`. -/
theorem bounds_then_flash_reject (t : Target) (env : Env) (s : State) (buf : List Nat)
    (off len : Nat) (hover : t.app_rom_end < t.app_rom + off + len)
    (hword : t.app_rom + off + len < 2 ^ t.wordBits) :
    bounds_then_flash t env s buf off len = (s, DfuStatus.errADDRESS) := by
  have h1 : wadd t off t.app_rom = off + t.app_rom := wadd_of_lt t (by omega)
  have h2 : wadd t (off + t.app_rom) len = off + t.app_rom + len := wadd_of_lt t (by omega)
  have h3 : t.app_rom_end < off + t.app_rom + len := by omega
  simp only [bounds_then_flash, h1, h2, gt_iff_lt, h3, if_true]

/-- The bounds check lets through every chunk whose end address, computed without
wrap-around, is at most `&_app_rom_end`. -/
theorem bounds_then_flash_accept (t : Target) (env : Env) (s : State) (buf : List Nat)
    (off len : Nat) (hin : t.app_rom + off + len ≤ t.app_rom_end)
    (hend : t.app_rom_end < 2 ^ t.wordBits) :
    bounds_then_flash t env s buf off len = flash_step t env s buf off len := by
  have h1 : wadd t off t.app_rom = off + t.app_rom := wadd_of_lt t (by omega)
  have h2 : wadd t (off + t.app_rom) len = off + t.app_rom + len := wadd_of_lt t (by omega)
  have h3 : ¬ t.app_rom_end < off + t.app_rom + len := by omega
  simp only [bounds_then_flash, h1, h2, gt_iff_lt, h3, if_false]

/-- C2 as stated fails. On the Kinetis build, for the first chunk
`finish_write( buf, 0, 0x20000 )` with verification Unknown, whose last byte
`0x21fff` is beyond `&_app_rom_end = 0x1ffff`, the status is errFILE when the
validator answers -1 and OK when it answers 1, not errADDRESS. And for
`off = 0xffffe000`, `len = 1024` the sum `off + &_app_rom + len` wraps to `0x400`,
so the chunk is programmed although its last byte is beyond the region. -/
theorem C2_counterexample :
    (k20.app_rom_end < k20.app_rom + 0 + 0x20000 - 1
      ∧ (finish_write k20 (Env.const (-1) true 0) (State.idle k20 DfuValidation.UNKNOWN) (zeros 0x20000)
          0 0x20000).2 = DfuStatus.errFILE
      ∧ (finish_write k20 (Env.const 1 true 0) (State.idle k20 DfuValidation.UNKNOWN) (zeros 0x20000)
          0 0x20000).2 = DfuStatus.OK)
    ∧ (k20.app_rom_end < k20.app_rom + 0xffffe000 + 1024 - 1
      ∧ (finish_write k20 (Env.const 0 true 0) (State.idle k20 DfuValidation.OK) (zeros 1024)
          0xffffe000 1024).2 = DfuStatus.OK
      ∧ programmed (finish_write k20 (Env.const 0 true 0) (State.idle k20 DfuValidation.OK) (zeros 1024)
          0xffffe000 1024).1.trace = [(0, 1024)]) := by
  refine ⟨⟨by decide, by decide, by decide⟩, by decide, by decide, by decide⟩

/-- C2, amended. For `len > 0`, when the last byte `&_app_rom + off + len - 1` is
beyond `&_app_rom_end` and the sum `&_app_rom + off + len` fits a machine word,
`finish_write` makes no call of `flash_get_staging_area`, `memcpy` or the flash
programmer: the only external call is the validator, and only in a first-chunk
key check (`off = 0`, verification Unknown). The status is errADDRESS, except in
a key check whose validator result is -1 (errFILE) or neither 0 nor -1 (OK). -/
theorem C2_overrun_not_programmed (t : Target) (env : Env) (s : State) (buf : List Nat)
    (off len : Nat) (hlen : len ≠ 0)
    (hover : t.app_rom_end < t.app_rom + off + len - 1)
    (hword : t.app_rom + off + len < 2 ^ t.wordBits) :
    (finish_write t env s buf off len).1.trace
        = s.trace ++ (if off = 0 ∧ s.dfu_ctx.verified = DfuValidation.UNKNOWN
            then [Event.validate buf] else [])
    ∧ (finish_write t env s buf off len).2
        = (if off = 0 ∧ s.dfu_ctx.verified = DfuValidation.UNKNOWN then
            (if env.Chip_validation s.trace buf = 0 then DfuStatus.errADDRESS
             else if env.Chip_validation s.trace buf = -1 then DfuStatus.errFILE
             else DfuStatus.OK)
           else DfuStatus.errADDRESS) := by
  have hov : t.app_rom_end < t.app_rom + off + len := by omega
  by_cases hk : off = 0 ∧ s.dfu_ctx.verified = DfuValidation.UNKNOWN
  · simp only [finish_write, hlen, hk, and_self, if_true, if_false]
    by_cases h0 : env.Chip_validation s.trace buf = 0
    · simp only [h0, if_true]
      rw [bounds_then_flash_reject t env _ buf 0 len (by simpa [hk.1] using hov)
        (by simpa [hk.1] using hword)]
      simp [State.log]
    · by_cases h1 : env.Chip_validation s.trace buf = -1
      · simp [h1, State.log]
      · simp [h0, h1, State.log]
  · rw [finish_write_no_check t env s buf off len hlen hk,
      bounds_then_flash_reject t env s buf off len hov hword]
    simp [hk]

theorem C2_overrun_not_programmed_witness :
    (finish_write k20 (Env.const 0 true 0) (State.idle k20 DfuValidation.OK) (zeros 1024) 0x1e000 1024).1.trace
        = [] ++ (if 0x1e000 = 0 ∧ DfuValidation.OK = DfuValidation.UNKNOWN
            then [Event.validate (zeros 1024)] else [])
    ∧ (finish_write k20 (Env.const 0 true 0) (State.idle k20 DfuValidation.OK) (zeros 1024) 0x1e000 1024).2
        = DfuStatus.errADDRESS :=
  ⟨(C2_overrun_not_programmed k20 (Env.const 0 true 0) (State.idle k20 DfuValidation.OK) (zeros 1024)
      0x1e000 1024 (by decide) (by decide) (by decide)).1,
   (C2_overrun_not_programmed k20 (Env.const 0 true 0) (State.idle k20 DfuValidation.OK) (zeros 1024)
      0x1e000 1024 (by decide) (by decide) (by decide)).2⟩

/-- C3. A first chunk (`off = 0`, `len > 0`, verification Unknown) whose validator
result is -1 ("key present but invalid") makes `finish_write` return errFILE and
set verification to Failed; the validator call is the only external call, so the
flash programmer is not invoked. -/
theorem C3_invalid_key (t : Target) (env : Env) (s : State) (buf : List Nat) (len : Nat)
    (hlen : len ≠ 0) (hu : s.dfu_ctx.verified = DfuValidation.UNKNOWN)
    (hv : env.Chip_validation s.trace buf = -1) :
    (finish_write t env s buf 0 len).2 = DfuStatus.errFILE
    ∧ (finish_write t env s buf 0 len).1.dfu_ctx.verified = DfuValidation.FAILED
    ∧ (finish_write t env s buf 0 len).1.trace = s.trace ++ [Event.validate buf]
    ∧ programmed (finish_write t env s buf 0 len).1.trace = programmed s.trace := by
  simp [finish_write, hlen, hu, hv, State.log, programmed, List.filterMap_append]

theorem C3_invalid_key_witness :
    (finish_write sam4s (Env.const (-1) true 0) (State.idle sam4s DfuValidation.UNKNOWN) [7, 7] 0 2).2
        = DfuStatus.errFILE
    ∧ (finish_write sam4s (Env.const (-1) true 0) (State.idle sam4s DfuValidation.UNKNOWN) [7, 7]
        0 2).1.dfu_ctx.verified = DfuValidation.FAILED
    ∧ (finish_write sam4s (Env.const (-1) true 0) (State.idle sam4s DfuValidation.UNKNOWN) [7, 7]
        0 2).1.trace = (State.idle sam4s DfuValidation.UNKNOWN).trace ++ [Event.validate [7, 7]]
    ∧ programmed (finish_write sam4s (Env.const (-1) true 0) (State.idle sam4s DfuValidation.UNKNOWN)
        [7, 7] 0 2).1.trace = programmed (State.idle sam4s DfuValidation.UNKNOWN).trace :=
  C3_invalid_key sam4s (Env.const (-1) true 0) (State.idle sam4s DfuValidation.UNKNOWN) [7, 7] 2
    (by decide) rfl rfl

/-! ## Verification state across calls -/

theorem setup_write_frame (t : Target) (s : State) (off len : Nat) :
    (setup_write t s off len).1.dfu_ctx = s.dfu_ctx
    ∧ (setup_write t s off len).1.trace = s.trace
    ∧ (setup_write t s off len).1.flash_stage = s.flash_stage := by
  unfold setup_write
  by_cases h1 : len > t.USB_DFU_TRANSFER_SIZE
  · simp [h1]
  · by_cases h2 : off = 0 <;> by_cases h3 : s.last ≠ 0 ∧ len ≠ 0 <;>
      by_cases h4 : len ≠ t.USB_DFU_TRANSFER_SIZE <;> simp [h1, h2, h3, h4]

theorem flash_step_frame (t : Target) (env : Env) (s : State) (buf : List Nat) (off len : Nat) :
    (flash_step t env s buf off len).1.dfu_ctx = s.dfu_ctx
    ∧ (flash_step t env s buf off len).1.trace.filter Event.isValidate
        = s.trace.filter Event.isValidate := by
  unfold flash_step
  cases t.chip <;> simp only []
  · split_ifs <;> simp [State.log, Event.isValidate]
  · simp [State.log, Event.isValidate]

theorem bounds_then_flash_frame (t : Target) (env : Env) (s : State) (buf : List Nat)
    (off len : Nat) :
    (bounds_then_flash t env s buf off len).1.dfu_ctx = s.dfu_ctx
    ∧ (bounds_then_flash t env s buf off len).1.trace.filter Event.isValidate
        = s.trace.filter Event.isValidate := by
  unfold bounds_then_flash
  split_ifs
  · simp
  · exact flash_step_frame t env s buf off len

/-- Outside the Unknown state `finish_write` neither changes `dfu_ctx` nor calls the
validator. -/
theorem finish_write_frame (t : Target) (env : Env) (s : State) (buf : List Nat)
    (off len : Nat) (h : s.dfu_ctx.verified ≠ DfuValidation.UNKNOWN) :
    (finish_write t env s buf off len).1.dfu_ctx = s.dfu_ctx
    ∧ (finish_write t env s buf off len).1.trace.filter Event.isValidate
        = s.trace.filter Event.isValidate := by
  by_cases hlen : len = 0
  · subst hlen
    rw [finish_write_zero]
    simp
  · rw [finish_write_no_check t env s buf off len hlen (fun hk => h hk.2)]
    exact bounds_then_flash_frame t env s buf off len

theorem step_frame (t : Target) (env : Env) (s : State) (c : Call)
    (h : s.dfu_ctx.verified ≠ DfuValidation.UNKNOWN) :
    (step t env s c).1.dfu_ctx = s.dfu_ctx
    ∧ (step t env s c).1.trace.filter Event.isValidate = s.trace.filter Event.isValidate := by
  cases c with
  | setup_read off => simp [step]
  | setup_write off len =>
    have hw := setup_write_frame t s off len
    simp [step, hw.1, hw.2.1]
  | finish_write buf off len => exact finish_write_frame t env s buf off len h

theorem run_frame (t : Target) (env : Env) (calls : List Call) :
    ∀ s : State, s.dfu_ctx.verified ≠ DfuValidation.UNKNOWN →
      (run t env s calls).dfu_ctx = s.dfu_ctx
      ∧ (run t env s calls).trace.filter Event.isValidate = s.trace.filter Event.isValidate := by
  induction calls with
  | nil => intro s _; simp [run]
  | cons c cs ih =>
    intro s h
    have hs := step_frame t env s c h
    have h2 : (step t env s c).1.dfu_ctx.verified ≠ DfuValidation.UNKNOWN := by
      rw [hs.1]; exact h
    have hr := ih (step t env s c).1 h2
    simp only [run]
    exact ⟨hr.1.trans hs.1, hr.2.trans hs.2⟩

/-- The programming step does not look at `dfu_ctx`. -/
theorem flash_step_ctx (t : Target) (env : Env) (s : State) (c : DfuCtx) (buf : List Nat)
    (off len : Nat) :
    (flash_step t env { s with dfu_ctx := c } buf off len).2 = (flash_step t env s buf off len).2
    ∧ (flash_step t env { s with dfu_ctx := c } buf off len).1.trace
        = (flash_step t env s buf off len).1.trace := by
  unfold flash_step
  cases t.chip <;> simp only []
  · split_ifs <;> simp [State.log]
  · simp [State.log]

theorem bounds_then_flash_ctx (t : Target) (env : Env) (s : State) (c : DfuCtx)
    (buf : List Nat) (off len : Nat) :
    (bounds_then_flash t env { s with dfu_ctx := c } buf off len).2
        = (bounds_then_flash t env s buf off len).2
    ∧ (bounds_then_flash t env { s with dfu_ctx := c } buf off len).1.trace
        = (bounds_then_flash t env s buf off len).1.trace := by
  unfold bounds_then_flash
  split_ifs
  · simp
  · exact flash_step_ctx t env s c buf off len

/-- C4, evaluated where it fails. On the Kinetis build, with a validator that
answers -1, the first `finish_write( buf, 0, 1024 )` returns errFILE and sets
verification to Failed; the very same call repeated then returns OK, leaves
verification Failed, and has the flash programmer program the 1024 bytes at
`&_app_rom = 0x2000`, with the validator called once in all. -/
theorem C4_rejected_image_flashed_on_retry :
    (finish_write k20 (Env.const (-1) true 0) (State.idle k20 DfuValidation.UNKNOWN) (zeros 1024) 0 1024).2
        = DfuStatus.errFILE
    ∧ (finish_write k20 (Env.const (-1) true 0) (State.idle k20 DfuValidation.UNKNOWN) (zeros 1024)
        0 1024).1.dfu_ctx.verified = DfuValidation.FAILED
    ∧ (finish_write k20 (Env.const (-1) true 0)
        (finish_write k20 (Env.const (-1) true 0) (State.idle k20 DfuValidation.UNKNOWN) (zeros 1024)
          0 1024).1 (zeros 1024) 0 1024).2 = DfuStatus.OK
    ∧ programmed (finish_write k20 (Env.const (-1) true 0)
        (finish_write k20 (Env.const (-1) true 0) (State.idle k20 DfuValidation.UNKNOWN) (zeros 1024)
          0 1024).1 (zeros 1024) 0 1024).1.trace = [(0x2000, 1024)]
    ∧ (finish_write k20 (Env.const (-1) true 0)
        (finish_write k20 (Env.const (-1) true 0) (State.idle k20 DfuValidation.UNKNOWN) (zeros 1024)
          0 1024).1 (zeros 1024) 0 1024).1.dfu_ctx.verified = DfuValidation.FAILED
    ∧ validations (finish_write k20 (Env.const (-1) true 0)
        (finish_write k20 (Env.const (-1) true 0) (State.idle k20 DfuValidation.UNKNOWN) (zeros 1024)
          0 1024).1 (zeros 1024) 0 1024).1.trace = 1 := by
  refine ⟨by decide, by decide, by decide, by decide, by decide, by decide⟩

/-- The Failed state is recorded but never tested. Once verification is Failed it
stays Failed through every later sequence of `setup_read`, `setup_write` and
`finish_write` calls, and none of them calls the validator again; yet every
`finish_write` call returns the status, and makes the external calls, that it
would with verification Ok. Only `init_usb_bootloader` sets verification back to
Unknown. -/
theorem failed_is_kept_but_not_enforced (t : Target) (env : Env) (s : State)
    (hf : s.dfu_ctx.verified = DfuValidation.FAILED) :
    (∀ calls : List Call,
      (run t env s calls).dfu_ctx.verified = DfuValidation.FAILED
      ∧ (run t env s calls).trace.filter Event.isValidate = s.trace.filter Event.isValidate)
    ∧ (∀ (buf : List Nat) (off len : Nat),
      (finish_write t env s buf off len).2
        = (finish_write t env { s with dfu_ctx := { s.dfu_ctx with verified := DfuValidation.OK } }
            buf off len).2
      ∧ (finish_write t env s buf off len).1.trace
        = (finish_write t env { s with dfu_ctx := { s.dfu_ctx with verified := DfuValidation.OK } }
            buf off len).1.trace)
    ∧ (∀ calls : List Call,
      (init_usb_bootloader (run t env s calls)).dfu_ctx.verified = DfuValidation.UNKNOWN) := by
  have hne : s.dfu_ctx.verified ≠ DfuValidation.UNKNOWN := by rw [hf]; decide
  refine ⟨fun calls => ?_, fun buf off len => ?_, fun calls => rfl⟩
  · have hr := run_frame t env calls s hne
    exact ⟨by rw [hr.1]; exact hf, hr.2⟩
  · by_cases hlen : len = 0
    · subst hlen
      simp [finish_write_zero]
    · rw [finish_write_no_check t env s buf off len hlen (fun hk => hne hk.2),
        finish_write_no_check t env _ buf off len hlen (fun hk => by simp at hk)]
      have hc := bounds_then_flash_ctx t env s
        { s.dfu_ctx with verified := DfuValidation.OK } buf off len
      exact ⟨hc.1.symm, hc.2.symm⟩

theorem failed_is_kept_but_not_enforced_example :
    (run sam4s (Env.const (-1) true 0) (State.idle sam4s DfuValidation.FAILED)
        [Call.setup_write 0 512, Call.finish_write (zeros 512) 0 512]).dfu_ctx.verified
        = DfuValidation.FAILED
    ∧ (run sam4s (Env.const (-1) true 0) (State.idle sam4s DfuValidation.FAILED)
        [Call.setup_write 0 512, Call.finish_write (zeros 512) 0 512]).trace.filter Event.isValidate
        = (State.idle sam4s DfuValidation.FAILED).trace.filter Event.isValidate :=
  (failed_is_kept_but_not_enforced sam4s (Env.const (-1) true 0)
    (State.idle sam4s DfuValidation.FAILED) rfl).1 [Call.setup_write 0 512, Call.finish_write (zeros 512) 0 512]

/-! ## The programming step, branch by branch -/

theorem flash_step_sam (t : Target) (env : Env) (s : State) (buf : List Nat) (off len : Nat)
    (hc : t.chip = Chip.sam) :
    flash_step t env s buf off len
      = (s.log (Event.program (wadd t off t.app_rom) s.staging t.USB_DFU_TRANSFER_SIZE),
         sam_status t (env.flash_program_sector s.trace (wadd t off t.app_rom) s.staging
           t.USB_DFU_TRANSFER_SIZE)) := by
  simp [flash_step, hc]

theorem flash_step_kinetis_null (t : Target) (env : Env) (s : State) (buf : List Nat)
    (off len : Nat) (hc : t.chip = Chip.kinetis)
    (hn : env.flash_get_staging_area s.trace (wadd t off t.app_rom) t.USB_DFU_TRANSFER_SIZE
      = false) :
    flash_step t env s buf off len
      = (s.log (Event.stage (wadd t off t.app_rom) t.USB_DFU_TRANSFER_SIZE),
         DfuStatus.errADDRESS) := by
  simp [flash_step, hc, hn]

theorem flash_step_kinetis_staged (t : Target) (env : Env) (s : State) (buf : List Nat)
    (off len : Nat) (hc : t.chip = Chip.kinetis)
    (hn : env.flash_get_staging_area s.trace (wadd t off t.app_rom) t.USB_DFU_TRANSFER_SIZE
      = true) :
    (flash_step t env s buf off len).1.trace
      = s.trace ++ [Event.stage (wadd t off t.app_rom) t.USB_DFU_TRANSFER_SIZE,
          Event.copy (buf.take len),
          Event.program (wadd t off t.app_rom) (buf.take len ++ s.flash_stage.drop len)
            t.USB_DFU_TRANSFER_SIZE]
    ∧ (flash_step t env s buf off len).2
      = kinetis_status t (env.flash_program_sector
          (s.trace ++ [Event.stage (wadd t off t.app_rom) t.USB_DFU_TRANSFER_SIZE,
            Event.copy (buf.take len)])
          (wadd t off t.app_rom) (buf.take len ++ s.flash_stage.drop len)
          t.USB_DFU_TRANSFER_SIZE) := by
  simp [flash_step, hc, hn, State.log]

/-! ## First chunk: valid key, no key -/

/-- C5 as stated fails on the Kinetis build. After a first chunk with a valid key
(validator result 1: status OK, verification Pending, nothing programmed), the
next chunk `finish_write( buf, 1024, 1024 )` lies within the region, yet when
`flash_get_staging_area` returns NULL the status is errADDRESS and the flash
programmer is not invoked. -/
theorem C5_counterexample :
    (finish_write k20 (Env.const 1 false 0) (State.idle k20 DfuValidation.UNKNOWN) (zeros 1024) 0 1024).2
        = DfuStatus.OK
    ∧ (finish_write k20 (Env.const 1 false 0) (State.idle k20 DfuValidation.UNKNOWN) (zeros 1024)
        0 1024).1.dfu_ctx.verified = DfuValidation.PENDING
    ∧ k20.app_rom + 1024 + 1024 ≤ k20.app_rom_end
    ∧ (finish_write k20 (Env.const 1 false 0)
        (finish_write k20 (Env.const 1 false 0) (State.idle k20 DfuValidation.UNKNOWN) (zeros 1024)
          0 1024).1 (zeros 1024) 1024 1024).2 = DfuStatus.errADDRESS
    ∧ programmed (finish_write k20 (Env.const 1 false 0)
        (finish_write k20 (Env.const 1 false 0) (State.idle k20 DfuValidation.UNKNOWN) (zeros 1024)
          0 1024).1 (zeros 1024) 1024 1024).1.trace = [] := by
  refine ⟨by decide, by decide, by decide, by decide, by decide⟩

/-- C5, amended. A first chunk (`off = 0`, `len > 0`, verification Unknown) whose
validator result is neither 0 nor -1 makes `finish_write` return OK and set
verification to Pending, with the validator call as its only external call. The
following `finish_write( buf2, chunk_size, len2 )` with `len2 > 0` and
`&_app_rom + chunk_size + len2 <= &_app_rom_end` does not call the validator and
goes to the programming step for destination `&_app_rom + chunk_size`: on SAM, and
on Kinetis when `flash_get_staging_area` returns a non-null area, the programmer is
called once for `chunk_size` bytes there and its mapped result is returned; on
Kinetis with a NULL area the status is errADDRESS and the programmer is not called. -/
theorem C5_valid_key (t : Target) (env : Env) (s : State) (buf : List Nat) (len : Nat)
    (buf2 : List Nat) (len2 : Nat)
    (hlen : len ≠ 0) (hu : s.dfu_ctx.verified = DfuValidation.UNKNOWN)
    (hv0 : env.Chip_validation s.trace buf ≠ 0) (hv1 : env.Chip_validation s.trace buf ≠ -1)
    (hlen2 : len2 ≠ 0)
    (hin : t.app_rom + t.USB_DFU_TRANSFER_SIZE + len2 ≤ t.app_rom_end)
    (hend : t.app_rom_end < 2 ^ t.wordBits) :
    (finish_write t env s buf 0 len).2 = DfuStatus.OK
    ∧ (finish_write t env s buf 0 len).1.dfu_ctx.verified = DfuValidation.PENDING
    ∧ (finish_write t env s buf 0 len).1.trace = s.trace ++ [Event.validate buf]
    ∧ ∀ s1 : State, s1 = (finish_write t env s buf 0 len).1 →
      (finish_write t env s1 buf2 t.USB_DFU_TRANSFER_SIZE len2).1.trace.filter Event.isValidate
          = s1.trace.filter Event.isValidate
      ∧ (t.chip = Chip.sam →
          (finish_write t env s1 buf2 t.USB_DFU_TRANSFER_SIZE len2).1.trace
            = s1.trace ++ [Event.program (t.app_rom + t.USB_DFU_TRANSFER_SIZE) s1.staging
                t.USB_DFU_TRANSFER_SIZE]
          ∧ (finish_write t env s1 buf2 t.USB_DFU_TRANSFER_SIZE len2).2
            = sam_status t (env.flash_program_sector s1.trace
                (t.app_rom + t.USB_DFU_TRANSFER_SIZE) s1.staging t.USB_DFU_TRANSFER_SIZE))
      ∧ (t.chip = Chip.kinetis →
          env.flash_get_staging_area s1.trace (t.app_rom + t.USB_DFU_TRANSFER_SIZE)
            t.USB_DFU_TRANSFER_SIZE = true →
          (finish_write t env s1 buf2 t.USB_DFU_TRANSFER_SIZE len2).1.trace
            = s1.trace ++ [Event.stage (t.app_rom + t.USB_DFU_TRANSFER_SIZE)
                  t.USB_DFU_TRANSFER_SIZE,
                Event.copy (buf2.take len2),
                Event.program (t.app_rom + t.USB_DFU_TRANSFER_SIZE)
                  (buf2.take len2 ++ s1.flash_stage.drop len2) t.USB_DFU_TRANSFER_SIZE]
          ∧ (finish_write t env s1 buf2 t.USB_DFU_TRANSFER_SIZE len2).2
            = kinetis_status t (env.flash_program_sector
                (s1.trace ++ [Event.stage (t.app_rom + t.USB_DFU_TRANSFER_SIZE)
                    t.USB_DFU_TRANSFER_SIZE, Event.copy (buf2.take len2)])
                (t.app_rom + t.USB_DFU_TRANSFER_SIZE)
                (buf2.take len2 ++ s1.flash_stage.drop len2) t.USB_DFU_TRANSFER_SIZE))
      ∧ (t.chip = Chip.kinetis →
          env.flash_get_staging_area s1.trace (t.app_rom + t.USB_DFU_TRANSFER_SIZE)
            t.USB_DFU_TRANSFER_SIZE = false →
          (finish_write t env s1 buf2 t.USB_DFU_TRANSFER_SIZE len2).1.trace
            = s1.trace ++ [Event.stage (t.app_rom + t.USB_DFU_TRANSFER_SIZE)
                  t.USB_DFU_TRANSFER_SIZE]
          ∧ (finish_write t env s1 buf2 t.USB_DFU_TRANSFER_SIZE len2).2
            = DfuStatus.errADDRESS) := by
  have hfirst : finish_write t env s buf 0 len
      = ({ (({ s with dfu_ctx := { s.dfu_ctx with off := 0 } } : State).log
            (Event.validate buf)) with
            dfu_ctx := { verified := DfuValidation.PENDING, off := 0 } }, DfuStatus.OK) := by
    simp [finish_write, hlen, hu, hv0, hv1, State.log]
  refine ⟨by rw [hfirst], by rw [hfirst], by rw [hfirst]; simp [State.log], ?_⟩
  intro s1 hs1
  have hp : s1.dfu_ctx.verified = DfuValidation.PENDING := by rw [hs1, hfirst]
  have hne : s1.dfu_ctx.verified ≠ DfuValidation.UNKNOWN := by rw [hp]; decide
  have ha : wadd t t.USB_DFU_TRANSFER_SIZE t.app_rom = t.app_rom + t.USB_DFU_TRANSFER_SIZE := by
    rw [wadd_of_lt t (by omega)]; exact Nat.add_comm _ _
  have hstep : finish_write t env s1 buf2 t.USB_DFU_TRANSFER_SIZE len2
      = flash_step t env s1 buf2 t.USB_DFU_TRANSFER_SIZE len2 := by
    rw [finish_write_no_check t env s1 buf2 _ len2 hlen2 (fun hk => hne hk.2),
      bounds_then_flash_accept t env s1 buf2 _ len2 hin hend]
  refine ⟨(finish_write_frame t env s1 buf2 _ len2 hne).2, ?_, ?_, ?_⟩
  · intro hc
    rw [hstep, flash_step_sam t env s1 buf2 _ len2 hc, ha]
    simp [State.log]
  · intro hc hst
    rw [← ha] at hst
    have h := flash_step_kinetis_staged t env s1 buf2 _ len2 hc hst
    rw [ha] at h
    rw [hstep]
    exact h
  · intro hc hst
    rw [← ha] at hst
    rw [hstep, flash_step_kinetis_null t env s1 buf2 _ len2 hc hst, ha]
    simp [State.log]

theorem C5_valid_key_witness :
    (finish_write sam4s (Env.const 1 true 0) (State.idle sam4s DfuValidation.UNKNOWN) [1] 0 1).2
        = DfuStatus.OK
    ∧ (finish_write sam4s (Env.const 1 true 0) (State.idle sam4s DfuValidation.UNKNOWN) [1]
        0 1).1.dfu_ctx.verified = DfuValidation.PENDING
    ∧ (finish_write sam4s (Env.const 1 true 0)
        (finish_write sam4s (Env.const 1 true 0) (State.idle sam4s DfuValidation.UNKNOWN) [1] 0 1).1
        [2] 512 512).1.trace
        = [Event.validate [1]] ++ [Event.program (0x406000 + 512) (List.replicate 512 0) 512] :=
  have h := C5_valid_key sam4s (Env.const 1 true 0) (State.idle sam4s DfuValidation.UNKNOWN) [1] 1
    [2] 512 (by decide) rfl (by decide) (by decide) (by decide) (by decide) (by decide)
  ⟨h.1, h.2.1, ((h.2.2.2 _ rfl).2.1 rfl).1⟩

/-- C6 as stated fails on the Kinetis build. For a first chunk without key
(validator result 0) that lies within the region, `finish_write( buf, 0, 1024 )`
sets verification to Ok, but when `flash_get_staging_area` returns NULL it returns
errADDRESS and the flash programmer is not invoked. -/
theorem C6_counterexample :
    k20.app_rom + 1024 ≤ k20.app_rom_end
    ∧ (finish_write k20 (Env.const 0 false 0) (State.idle k20 DfuValidation.UNKNOWN) (zeros 1024)
        0 1024).1.dfu_ctx.verified = DfuValidation.OK
    ∧ (finish_write k20 (Env.const 0 false 0) (State.idle k20 DfuValidation.UNKNOWN) (zeros 1024) 0 1024).2
        = DfuStatus.errADDRESS
    ∧ programmed (finish_write k20 (Env.const 0 false 0) (State.idle k20 DfuValidation.UNKNOWN) (zeros 1024)
        0 1024).1.trace = [] := by
  refine ⟨by decide, by decide, by decide, by decide⟩

/-- C6, amended. A first chunk (`off = 0`, `len > 0`, verification Unknown) with
`&_app_rom + len <= &_app_rom_end` whose validator result is 0 sets verification
to Ok, and the same call goes on to the programming step for destination
`&_app_rom`: on SAM, and on Kinetis when `flash_get_staging_area` returns a
non-null area, the programmer is called exactly once, for `chunk_size` bytes at
`&_app_rom`, and its mapped result is returned; on Kinetis with a NULL area the
status is errADDRESS and the programmer is not called. -/
theorem C6_no_key (t : Target) (env : Env) (s : State) (buf : List Nat) (len : Nat)
    (hlen : len ≠ 0) (hu : s.dfu_ctx.verified = DfuValidation.UNKNOWN)
    (hv : env.Chip_validation s.trace buf = 0)
    (hin : t.app_rom + len ≤ t.app_rom_end)
    (hend : t.app_rom_end < 2 ^ t.wordBits) :
    (finish_write t env s buf 0 len).1.dfu_ctx.verified = DfuValidation.OK
    ∧ (t.chip = Chip.sam →
        (finish_write t env s buf 0 len).1.trace
          = s.trace ++ [Event.validate buf,
              Event.program t.app_rom s.staging t.USB_DFU_TRANSFER_SIZE]
        ∧ (finish_write t env s buf 0 len).2
          = sam_status t (env.flash_program_sector (s.trace ++ [Event.validate buf])
              t.app_rom s.staging t.USB_DFU_TRANSFER_SIZE))
    ∧ (t.chip = Chip.kinetis →
        env.flash_get_staging_area (s.trace ++ [Event.validate buf]) t.app_rom
          t.USB_DFU_TRANSFER_SIZE = true →
        (finish_write t env s buf 0 len).1.trace
          = s.trace ++ [Event.validate buf,
              Event.stage t.app_rom t.USB_DFU_TRANSFER_SIZE,
              Event.copy (buf.take len),
              Event.program t.app_rom (buf.take len ++ s.flash_stage.drop len)
                t.USB_DFU_TRANSFER_SIZE]
        ∧ (finish_write t env s buf 0 len).2
          = kinetis_status t (env.flash_program_sector
              (s.trace ++ [Event.validate buf,
                Event.stage t.app_rom t.USB_DFU_TRANSFER_SIZE, Event.copy (buf.take len)])
              t.app_rom (buf.take len ++ s.flash_stage.drop len) t.USB_DFU_TRANSFER_SIZE))
    ∧ (t.chip = Chip.kinetis →
        env.flash_get_staging_area (s.trace ++ [Event.validate buf]) t.app_rom
          t.USB_DFU_TRANSFER_SIZE = false →
        (finish_write t env s buf 0 len).1.trace
          = s.trace ++ [Event.validate buf, Event.stage t.app_rom t.USB_DFU_TRANSFER_SIZE]
        ∧ (finish_write t env s buf 0 len).2 = DfuStatus.errADDRESS) := by
  have ha : wadd t 0 t.app_rom = t.app_rom := by
    rw [wadd_of_lt t (by omega)]; exact Nat.zero_add _
  have hfw : finish_write t env s buf 0 len
      = flash_step t env
          { s with dfu_ctx := { verified := DfuValidation.OK, off := 0 },
                   trace := s.trace ++ [Event.validate buf] } buf 0 len := by
    rw [← bounds_then_flash_accept t env _ buf 0 len (by simpa using hin) hend]
    simp [finish_write, hlen, hu, hv, State.log]
  rw [hfw]
  refine ⟨?_, ?_, ?_, ?_⟩
  · rw [(flash_step_frame t env _ buf 0 len).1]
  · intro hc
    rw [flash_step_sam t env _ buf 0 len hc, ha]
    simp [State.log]
  · intro hc hst
    have h := flash_step_kinetis_staged t env
      { s with dfu_ctx := { verified := DfuValidation.OK, off := 0 },
               trace := s.trace ++ [Event.validate buf] } buf 0 len hc (by rw [ha]; exact hst)
    rw [ha] at h
    simpa using h
  · intro hc hst
    rw [flash_step_kinetis_null t env _ buf 0 len hc (by rw [ha]; exact hst), ha]
    simp [State.log]

theorem C6_no_key_witness :
    (finish_write k20 (Env.const 0 true 0) (State.idle k20 DfuValidation.UNKNOWN) [9, 8] 0 2).1.dfu_ctx.verified
        = DfuValidation.OK
    ∧ (finish_write k20 (Env.const 0 true 0) (State.idle k20 DfuValidation.UNKNOWN) [9, 8] 0 2).1.trace
        = [] ++ [Event.validate [9, 8], Event.stage 0x2000 1024, Event.copy [9, 8],
            Event.program 0x2000 ([9, 8] ++ List.drop 2 (List.replicate 1024 0xff)) 1024]
    ∧ (finish_write k20 (Env.const 0 true 0) (State.idle k20 DfuValidation.UNKNOWN) [9, 8] 0 2).2
        = DfuStatus.OK :=
  have h := C6_no_key k20 (Env.const 0 true 0) (State.idle k20 DfuValidation.UNKNOWN) [9, 8] 2
    (by decide) rfl rfl (by decide) (by decide)
  ⟨h.1, (h.2.2.1 rfl rfl).1, (h.2.2.1 rfl rfl).2⟩

/-- C7, evaluated where it fails. On the Kinetis build `flash_program_sector`
returns `0x30` (`FTFL_FSTAT_ACCERR | FTFL_FSTAT_FPVIOL`, not the success code 0):
the value matches no `case` label, falls to `default`, and `finish_write` returns
OK. On the SAM build the same result code gives errADDRESS. -/
theorem C7_kinetis_unnamed_code_is_ok :
    (finish_write k20 (Env.const 0 true 0x30) (State.idle k20 DfuValidation.OK) (zeros 1024) 0 1024).2
        = DfuStatus.OK
    ∧ programmed
        (finish_write k20 (Env.const 0 true 0x30) (State.idle k20 DfuValidation.OK) (zeros 1024) 0 1024).1.trace
        = [(0x2000, 1024)]
    ∧ (Env.const 0 true 0x30).flash_program_sector [] 0x2000 (zeros 1024) 1024 ≠ 0
    ∧ (finish_write sam4s (Env.const 0 true 0x30) (State.idle sam4s DfuValidation.OK) (zeros 512) 0 512).2
        = DfuStatus.errADDRESS := by
  refine ⟨by decide, by decide, by decide, by decide⟩

/-! ## setup_write -/

theorem flash_step_static (t : Target) (env : Env) (s : State) (buf : List Nat) (off len : Nat) :
    (flash_step t env s buf off len).1.last = s.last
    ∧ (flash_step t env s buf off len).1.staging = s.staging := by
  unfold flash_step
  cases t.chip <;> simp only []
  · split_ifs <;> simp [State.log]
  · simp [State.log]

theorem bounds_then_flash_static (t : Target) (env : Env) (s : State) (buf : List Nat)
    (off len : Nat) :
    (bounds_then_flash t env s buf off len).1.last = s.last
    ∧ (bounds_then_flash t env s buf off len).1.staging = s.staging := by
  unfold bounds_then_flash
  split_ifs
  · simp
  · exact flash_step_static t env s buf off len

/-- `finish_write` touches neither `last` nor `staging`. -/
theorem finish_write_static (t : Target) (env : Env) (s : State) (buf : List Nat)
    (off len : Nat) :
    (finish_write t env s buf off len).1.last = s.last
    ∧ (finish_write t env s buf off len).1.staging = s.staging := by
  by_cases hlen : len = 0
  · subst hlen
    rw [finish_write_zero]
    simp
  · by_cases hk : off = 0 ∧ s.dfu_ctx.verified = DfuValidation.UNKNOWN
    · simp only [finish_write, hlen, hk, and_self, if_true, if_false]
      split_ifs
      · exact bounds_then_flash_static t env _ buf _ len
      · simp [State.log]
      · simp [State.log]
    · rw [finish_write_no_check t env s buf off len hlen hk]
      exact bounds_then_flash_static t env s buf off len

theorem setup_write_zero_len (t : Target) (s : State) (off : Nat) :
    (setup_write t s off 0).2.1 = DfuStatus.OK := by
  unfold setup_write
  simp

theorem setup_write_after_short (t : Target) (s : State) (off len : Nat)
    (hoff : off ≠ 0) (hlast : s.last ≠ 0) :
    (setup_write t s off len).1.last ≠ 0
    ∧ (len ≠ 0 → (setup_write t s off len).2.1 = DfuStatus.errADDRESS) := by
  unfold setup_write
  by_cases h1 : len > t.USB_DFU_TRANSFER_SIZE
  · simp [h1, hlast]
  · by_cases h3 : len = 0
    · subst h3
      simp only [h1, hoff, if_false, ne_eq, not_true_eq_false, and_false]
      split_ifs <;> simp [hlast]
    · simp [h1, hoff, hlast, h3]

theorem setup_write_short_first (t : Target) (s : State) (len : Nat)
    (hshort : len < t.USB_DFU_TRANSFER_SIZE) :
    (setup_write t s 0 len).2.1 = DfuStatus.OK ∧ (setup_write t s 0 len).1.last = 1 := by
  have h1 : ¬ len > t.USB_DFU_TRANSFER_SIZE := by omega
  have h4 : len ≠ t.USB_DFU_TRANSFER_SIZE := by omega
  simp [setup_write, h1, h4]

theorem step_keeps_last (t : Target) (env : Env) (s : State) (c : Call)
    (hc : c.restarts = false) (hlast : s.last ≠ 0) : (step t env s c).1.last ≠ 0 := by
  cases c with
  | setup_read off => simpa [step] using hlast
  | setup_write off len =>
    have hoff : off ≠ 0 := by simpa [Call.restarts] using hc
    exact (setup_write_after_short t s off len hoff hlast).1
  | finish_write buf off len =>
    simp only [step]
    rw [(finish_write_static t env s buf off len).1]
    exact hlast

theorem run_keeps_last (t : Target) (env : Env) (calls : List Call) :
    ∀ s : State, (∀ c ∈ calls, Call.restarts c = false) → s.last ≠ 0 →
      (run t env s calls).last ≠ 0 := by
  induction calls with
  | nil => intro s _ h; simpa [run] using h
  | cons c cs ih =>
    intro s hall hlast
    simp only [run]
    exact ih _ (fun d hd => hall d (List.mem_cons_of_mem c hd))
      (step_keeps_last t env s c (hall c (List.mem_cons_self c cs)) hlast)

/-- C8 as stated fails for a further write at offset 0. After the short first chunk
`setup_write( 0, 10 )` has returned OK, `setup_write( 0, 10 )` returns OK again,
not errADDRESS; and once such a write has cleared the flag, a write of length 10
at offset 1024 returns OK as well. -/
theorem C8_counterexample :
    (setup_write k20 (State.idle k20 DfuValidation.UNKNOWN) 0 10).2.1 = DfuStatus.OK
    ∧ (setup_write k20 (setup_write k20 (State.idle k20 DfuValidation.UNKNOWN) 0 10).1 0 10).2.1
        = DfuStatus.OK
    ∧ (setup_write k20
        (run k20 (Env.const 0 true 0) (setup_write k20 (State.idle k20 DfuValidation.UNKNOWN) 0 10).1
          [Call.setup_write 0 1024]) 1024 10).2.1 = DfuStatus.OK := by
  refine ⟨by decide, by decide, by decide⟩

/-- C8, amended. For every `len < chunk_size`, `setup_write( 0, len )` returns OK,
and after it, following any sequence of callbacks that contains no
`setup_write` at offset 0, every `setup_write( off, len2 )` with `len2 > 0` and
`off != 0` returns errADDRESS, and every `setup_write( off, 0 )` returns OK,
whatever `off` is. -/
theorem C8_short_chunk_is_last (t : Target) (env : Env) (s : State) (len : Nat)
    (hshort : len < t.USB_DFU_TRANSFER_SIZE) :
    (setup_write t s 0 len).2.1 = DfuStatus.OK
    ∧ ∀ calls : List Call, (∀ c ∈ calls, Call.restarts c = false) →
      ∀ off len2 : Nat,
        (len2 ≠ 0 → off ≠ 0 →
          (setup_write t (run t env (setup_write t s 0 len).1 calls) off len2).2.1
            = DfuStatus.errADDRESS)
        ∧ (len2 = 0 →
          (setup_write t (run t env (setup_write t s 0 len).1 calls) off len2).2.1
            = DfuStatus.OK) := by
  have hfirst := setup_write_short_first t s len hshort
  refine ⟨hfirst.1, fun calls hall off len2 => ⟨fun hl ho => ?_, fun hl => ?_⟩⟩
  · have hlast : (run t env (setup_write t s 0 len).1 calls).last ≠ 0 :=
      run_keeps_last t env calls _ hall (by rw [hfirst.2]; decide)
    exact (setup_write_after_short t _ off len2 ho hlast).2 hl
  · subst hl
    exact setup_write_zero_len t _ off

theorem C8_short_chunk_is_last_witness :
    (setup_write k20 (State.idle k20 DfuValidation.UNKNOWN) 0 10).2.1 = DfuStatus.OK
    ∧ (setup_write k20
        (run k20 (Env.const 0 true 0) (setup_write k20 (State.idle k20 DfuValidation.UNKNOWN) 0 10).1
          [Call.finish_write (zeros 10) 0 10, Call.setup_write 1024 0]) 2048 10).2.1
        = DfuStatus.errADDRESS
    ∧ (setup_write k20
        (run k20 (Env.const 0 true 0) (setup_write k20 (State.idle k20 DfuValidation.UNKNOWN) 0 10).1
          [Call.finish_write (zeros 10) 0 10, Call.setup_write 1024 0]) 0 0).2.1
        = DfuStatus.OK :=
  have h := C8_short_chunk_is_last k20 (Env.const 0 true 0) (State.idle k20 DfuValidation.UNKNOWN)
    10 (by decide)
  ⟨h.1,
   ((h.2 [Call.finish_write (zeros 10) 0 10, Call.setup_write 1024 0] (by decide) 2048 10).1
      (by decide) (by decide)),
   ((h.2 [Call.finish_write (zeros 10) 0 10, Call.setup_write 1024 0] (by decide) 0 0).2 rfl)⟩

/-- C9. A requested length above `sizeof(staging)` makes `setup_write` return
errADDRESS without storing to `*buf` and without changing any state: `staging`
and `last` keep their values, for every offset and every prior `last`. -/
theorem C9_oversized_write_rejected (t : Target) (s : State) (off len : Nat)
    (hbig : len > t.USB_DFU_TRANSFER_SIZE) :
    setup_write t s off len = (s, DfuStatus.errADDRESS, none) := by
  simp [setup_write, hbig]

theorem C9_oversized_write_rejected_witness :
    setup_write k20 { State.idle k20 DfuValidation.OK with last := 1 } 0 1025
      = ({ State.idle k20 DfuValidation.OK with last := 1 }, DfuStatus.errADDRESS, none)
    ∧ setup_write k20 (State.idle k20 DfuValidation.UNKNOWN) 4096 0x10000
      = (State.idle k20 DfuValidation.UNKNOWN, DfuStatus.errADDRESS, none) :=
  ⟨C9_oversized_write_rejected k20 _ 0 1025 (by decide),
   C9_oversized_write_rejected k20 _ 4096 0x10000 (by decide)⟩

/-! ## setup_read -/

/-- `setup_read` in plain arithmetic, for a start address inside the region. -/
theorem setup_read_inside (t : Target) (o : Nat)
    (hbuf : t.app_rom + o ≤ t.app_rom_end)
    (hfit : t.app_rom_end + t.USB_DFU_TRANSFER_SIZE < 2 ^ t.wordBits) :
    setup_read t o
      = (DfuStatus.OK,
         (if t.app_rom_end < t.app_rom + o + t.USB_DFU_TRANSFER_SIZE
          then t.app_rom_end - (t.app_rom + o) + 1 else t.USB_DFU_TRANSFER_SIZE),
         BufPtr.addr (t.app_rom + o)) := by
  have h1 : wadd t t.app_rom o = t.app_rom + o := wadd_of_lt t (by omega)
  have h2 : wadd t (t.app_rom + o) t.USB_DFU_TRANSFER_SIZE
      = t.app_rom + o + t.USB_DFU_TRANSFER_SIZE := wadd_of_lt t (by omega)
  have h3 : wsub t t.app_rom_end (t.app_rom + o) = t.app_rom_end - (t.app_rom + o) :=
    wsub_of_le t hbuf (by omega)
  by_cases hc : t.app_rom_end < t.app_rom + o + t.USB_DFU_TRANSFER_SIZE
  · have h4 : wadd t (t.app_rom_end - (t.app_rom + o)) 1
        = t.app_rom_end - (t.app_rom + o) + 1 := wadd_of_lt t (by omega)
    simp only [setup_read, h1, h2, h3, h4, gt_iff_lt, hc, if_true]
  · simp only [setup_read, h1, h2, gt_iff_lt, hc, if_false]

/-- C10. With `region_size = &_app_rom_end - &_app_rom + 1`, on a target whose
region is not empty, whose chunk size is positive and where
`&_app_rom_end + chunk_size` fits a machine word: for every `o` with
`o + chunk_size <= region_size`, `setup_read( o )` returns OK, `buf = &_app_rom + o`
and `len = chunk_size` (also when `o + chunk_size = region_size`); for every `o`
with `region_size < o + chunk_size` and `o < region_size` it returns
`len = &_app_rom_end - (&_app_rom + o) + 1`; so for every `o < region_size` it
agrees with the reference definition `setup_read_spec`. -/
theorem C10_setup_read_matches_reference (t : Target) (o : Nat)
    (hreg : t.app_rom ≤ t.app_rom_end) (hpos : 0 < t.USB_DFU_TRANSFER_SIZE)
    (hfit : t.app_rom_end + t.USB_DFU_TRANSFER_SIZE < 2 ^ t.wordBits) :
    (o + t.USB_DFU_TRANSFER_SIZE ≤ region_size t →
      setup_read t o = (DfuStatus.OK, t.USB_DFU_TRANSFER_SIZE, BufPtr.addr (t.app_rom + o)))
    ∧ (region_size t < o + t.USB_DFU_TRANSFER_SIZE → o < region_size t →
      setup_read t o
        = (DfuStatus.OK, t.app_rom_end - (t.app_rom + o) + 1, BufPtr.addr (t.app_rom + o)))
    ∧ (o < region_size t → setup_read t o = setup_read_spec t o) := by
  unfold setup_read_spec region_size
  refine ⟨fun h => ?_, fun h1 h2 => ?_, fun h => ?_⟩
  · rw [setup_read_inside t o (by omega) hfit]
    by_cases hc : t.app_rom_end < t.app_rom + o + t.USB_DFU_TRANSFER_SIZE
    · have e : t.app_rom_end - (t.app_rom + o) + 1 = t.USB_DFU_TRANSFER_SIZE := by omega
      simp only [hc, if_true, e]
    · simp only [hc, if_false]
  · rw [setup_read_inside t o (by omega) hfit]
    have hc : t.app_rom_end < t.app_rom + o + t.USB_DFU_TRANSFER_SIZE := by omega
    simp only [hc, if_true]
  · rw [setup_read_inside t o (by omega) hfit]
    by_cases hs : o + t.USB_DFU_TRANSFER_SIZE ≤ t.app_rom_end - t.app_rom + 1
    · by_cases hc : t.app_rom_end < t.app_rom + o + t.USB_DFU_TRANSFER_SIZE
      · have e : t.app_rom_end - (t.app_rom + o) + 1 = t.USB_DFU_TRANSFER_SIZE := by omega
        simp only [hc, hs, if_true, e]
      · simp only [hc, hs, if_true, if_false]
    · have hc : t.app_rom_end < t.app_rom + o + t.USB_DFU_TRANSFER_SIZE := by omega
      simp only [hc, hs, if_true, if_false]

theorem C10_setup_read_matches_reference_witness :
    setup_read k20 0x1dc00 = (DfuStatus.OK, 1024, BufPtr.addr (0x2000 + 0x1dc00))
    ∧ setup_read k20 0x1dc01
        = (DfuStatus.OK, 0x1ffff - (0x2000 + 0x1dc01) + 1, BufPtr.addr (0x2000 + 0x1dc01))
    ∧ setup_read k20 0x1dfff = setup_read_spec k20 0x1dfff :=
  ⟨(C10_setup_read_matches_reference k20 0x1dc00 (by decide) (by decide) (by decide)).1
      (by decide),
   (C10_setup_read_matches_reference k20 0x1dc01 (by decide) (by decide) (by decide)).2.1
      (by decide) (by decide),
   (C10_setup_read_matches_reference k20 0x1dfff (by decide) (by decide) (by decide)).2.2
      (by decide)⟩

/-- Within the region the window of `setup_read` is clamped: for `o < region_size`
its last byte is at most `&_app_rom_end`, and at `o = region_size` it is empty. -/
theorem setup_read_clamped_inside (t : Target) (o : Nat)
    (hreg : t.app_rom ≤ t.app_rom_end) (hpos : 0 < t.USB_DFU_TRANSFER_SIZE)
    (hfit : t.app_rom_end + t.USB_DFU_TRANSFER_SIZE + 1 < 2 ^ t.wordBits) :
    (o < region_size t →
      0 < (setup_read t o).2.1 ∧ t.app_rom + o + (setup_read t o).2.1 - 1 ≤ t.app_rom_end)
    ∧ (o = region_size t → (setup_read t o).2.1 = 0) := by
  unfold region_size
  refine ⟨fun h => ?_, fun h => ?_⟩
  · rw [setup_read_inside t o (by omega) (by omega)]
    by_cases hc : t.app_rom_end < t.app_rom + o + t.USB_DFU_TRANSFER_SIZE
    · simp only [hc, if_true]
      omega
    · simp only [hc, if_false]
      omega
  · have h0 : wadd t t.app_rom o = t.app_rom + o := wadd_of_lt t (by omega)
    have h1 : wadd t t.app_rom o = t.app_rom_end + 1 := by rw [h0]; omega
    have h2 : wadd t (t.app_rom_end + 1) t.USB_DFU_TRANSFER_SIZE
        = t.app_rom_end + 1 + t.USB_DFU_TRANSFER_SIZE := wadd_of_lt t (by omega)
    have h3 : wsub t t.app_rom_end (t.app_rom_end + 1) = 2 ^ t.wordBits - 1 := by
      unfold wsub
      rw [Nat.mod_eq_of_lt (show t.app_rom_end < 2 ^ t.wordBits by omega),
        Nat.mod_eq_of_lt (show t.app_rom_end + 1 < 2 ^ t.wordBits by omega)]
      have e : t.app_rom_end + (2 ^ t.wordBits - (t.app_rom_end + 1)) = 2 ^ t.wordBits - 1 := by
        omega
      rw [e]
      exact Nat.mod_eq_of_lt (by omega)
    have h4 : wadd t (2 ^ t.wordBits - 1) 1 = 0 := by
      unfold wadd
      have e : 2 ^ t.wordBits - 1 + 1 = 2 ^ t.wordBits := by omega
      rw [e, Nat.mod_self]
    have hc : t.app_rom_end < t.app_rom_end + 1 + t.USB_DFU_TRANSFER_SIZE := by omega
    simp only [setup_read, h1, h2, h3, h4, gt_iff_lt, hc, if_true]

/-- C11, evaluated where it fails. On the Kinetis build the region has `0x1e000`
bytes. `setup_read( 0x1e001 )`, one byte beyond the end of the region, yields
`buf = 0x20001`; `buf + 1024` is above `&_app_rom_end`, so the length is
`&_app_rom_end - buf + 1` in unsigned arithmetic, which is `0xffffffff`: the window
is not empty and its last byte is far beyond `&_app_rom_end = 0x1ffff`. At
`0xffffe000` the address wraps to 0 and a full chunk below `&_app_rom` is
returned. -/
theorem C11_read_window_not_clamped :
    region_size k20 = 0x1e000
    ∧ setup_read k20 0x1e001 = (DfuStatus.OK, 0xffffffff, BufPtr.addr 0x20001)
    ∧ ¬ (0x20001 + 0xffffffff - 1 ≤ k20.app_rom_end)
    ∧ setup_read k20 0xffffe000 = (DfuStatus.OK, 1024, BufPtr.addr 0) := by
  refine ⟨by decide, by decide, by decide, by decide⟩

/-! ## Zero-length finish, short-chunk fill, region end, restart -/

/-- C15. `finish_write( buf, off, 0 )` returns OK and leaves the whole state as it
was, for every `buf`, every `off` and every state: verification and `dfu_ctx.off`
keep their values and no external call (validator, flash programmer) is made. -/
theorem C15_zero_length_is_noop (t : Target) (env : Env) (s : State) (buf : List Nat)
    (off : Nat) :
    (finish_write t env s buf off 0).2 = DfuStatus.OK
    ∧ (finish_write t env s buf off 0).1 = s
    ∧ (finish_write t env s buf off 0).1.dfu_ctx.verified = s.dfu_ctx.verified
    ∧ (finish_write t env s buf off 0).1.dfu_ctx.off = s.dfu_ctx.off
    ∧ (finish_write t env s buf off 0).1.trace = s.trace := by
  rw [finish_write_zero]
  exact ⟨rfl, rfl, rfl, rfl, rfl⟩

/-- C15 at a concrete input: offset beyond the region, verification Unknown. -/
theorem C15_zero_length_is_noop_witness :
    (finish_write k20 (Env.const (-1) true 5) (State.idle k20 DfuValidation.UNKNOWN) []
        0xfffffff0 0).2 = DfuStatus.OK
    ∧ (finish_write k20 (Env.const (-1) true 5) (State.idle k20 DfuValidation.UNKNOWN) []
        0 0).1 = State.idle k20 DfuValidation.UNKNOWN :=
  ⟨(C15_zero_length_is_noop k20 (Env.const (-1) true 5) (State.idle k20 DfuValidation.UNKNOWN) []
      0xfffffff0).1,
   (C15_zero_length_is_noop k20 (Env.const (-1) true 5) (State.idle k20 DfuValidation.UNKNOWN) []
      0).2.1⟩

/-- What an accepted `setup_write` leaves behind. -/
theorem setup_write_accepted (t : Target) (s : State) (off len : Nat)
    (hacc : (setup_write t s off len).2.1 = DfuStatus.OK) :
    (setup_write t s off len).2.2 = some BufPtr.staging
    ∧ (len ≠ t.USB_DFU_TRANSFER_SIZE →
        (setup_write t s off len).1.last = 1
        ∧ (setup_write t s off len).1.staging = List.replicate t.USB_DFU_TRANSFER_SIZE 0xff)
    ∧ (len = t.USB_DFU_TRANSFER_SIZE →
        (setup_write t s off len).1.staging = s.staging
        ∧ (setup_write t s off len).1.last = (if off = 0 then 0 else s.last)) := by
  unfold setup_write at hacc ⊢
  by_cases h1 : len > t.USB_DFU_TRANSFER_SIZE
  · simp [h1] at hacc
  · by_cases h2 : off = 0
    · by_cases h4 : len = t.USB_DFU_TRANSFER_SIZE <;> simp [h1, h2, h4]
    · by_cases hl : s.last = 0
      · by_cases h4 : len = t.USB_DFU_TRANSFER_SIZE <;> simp [h1, h2, hl, h4]
      · by_cases hz : len = 0
        · by_cases h4 : len = t.USB_DFU_TRANSFER_SIZE
          · have hT : t.USB_DFU_TRANSFER_SIZE = 0 := by omega
            simp [h2, hz, hT]
          · have hT : ¬ 0 = t.USB_DFU_TRANSFER_SIZE := by omega
            simp [h2, hz, hT]
        · simp [h1, h2, hl, hz] at hacc

/-- C16 as stated fails. The fill byte is `0xff`, not zero: after the accepted short
chunk `setup_write( 0, 10 )` byte 0 of `staging` is `0xff`. And a full chunk at
offset 0 does modify the terminal flag: with `last = 1` before,
`setup_write( 0, 1024 )` is accepted and leaves `last = 0`. -/
theorem C16_counterexample :
    (setup_write k20 (State.idle k20 DfuValidation.UNKNOWN) 0 10).2.1 = DfuStatus.OK
    ∧ (setup_write k20 (State.idle k20 DfuValidation.UNKNOWN) 0 10).1.staging.get? 0
        = some 0xff
    ∧ (setup_write k20 { State.idle k20 DfuValidation.UNKNOWN with last := 1 } 0 1024).2.1
        = DfuStatus.OK
    ∧ (setup_write k20 { State.idle k20 DfuValidation.UNKNOWN with last := 1 } 0 1024).1.last
        = 0 := by
  refine ⟨by decide, by decide, by decide, by decide⟩

/-- C16, amended. For every offset and every accepted length `len != chunk_size`,
`setup_write` sets the terminal flag (`last = 1`) and leaves `staging` as
`chunk_size` bytes that are all `0xff` before yielding it. For an accepted
`len == chunk_size` it yields `staging` unmodified, and the terminal flag is
changed only by the reset at offset 0: it is 0 after a call at offset 0 and keeps
its value otherwise. -/
theorem C16_short_chunk_fill (t : Target) (s : State) (off len : Nat)
    (hacc : (setup_write t s off len).2.1 = DfuStatus.OK) :
    (len ≠ t.USB_DFU_TRANSFER_SIZE →
      (setup_write t s off len).1.last = 1
      ∧ (setup_write t s off len).1.staging.length = t.USB_DFU_TRANSFER_SIZE
      ∧ (∀ b ∈ (setup_write t s off len).1.staging, b = 0xff)
      ∧ (setup_write t s off len).2.2 = some BufPtr.staging)
    ∧ (len = t.USB_DFU_TRANSFER_SIZE →
      (setup_write t s off len).1.staging = s.staging
      ∧ (setup_write t s off len).1.last = (if off = 0 then 0 else s.last)
      ∧ (setup_write t s off len).2.2 = some BufPtr.staging) := by
  have h := setup_write_accepted t s off len hacc
  refine ⟨fun hne => ?_, fun heq => ⟨(h.2.2 heq).1, (h.2.2 heq).2, h.1⟩⟩
  have hs := (h.2.1 hne).2
  refine ⟨(h.2.1 hne).1, ?_, ?_, h.1⟩
  · rw [hs, List.length_replicate]
  · intro b hb
    rw [hs] at hb
    exact List.eq_of_mem_replicate hb

/-- C16 at a concrete input: a short chunk at offset 2048 on the SAM build. -/
theorem C16_short_chunk_fill_witness :
    (setup_write sam4s (State.idle sam4s DfuValidation.OK) 2048 100).1.last = 1
    ∧ (setup_write sam4s (State.idle sam4s DfuValidation.OK) 2048 100).1.staging.length = 512
    ∧ (setup_write sam4s (State.idle sam4s DfuValidation.OK) 2048 512).1.staging
        = (State.idle sam4s DfuValidation.OK).staging :=
  ⟨((C16_short_chunk_fill sam4s (State.idle sam4s DfuValidation.OK) 2048 100 (by decide)).1
      (by decide)).1,
   ((C16_short_chunk_fill sam4s (State.idle sam4s DfuValidation.OK) 2048 100 (by decide)).1
      (by decide)).2.1,
   ((C16_short_chunk_fill sam4s (State.idle sam4s DfuValidation.OK) 2048 512 (by decide)).2
      rfl).1⟩

/-- C17, evaluated where it fails. On the Kinetis build `setup_read( 0x1dc00 )`
returns the last 1024 bytes of the region, a window whose last byte is
`&_app_rom_end = 0x1ffff`. Writing that window back with
`finish_write( buf, 0x1dc00, 1024 )`, verification Ok or Pending, is rejected by
the bounds check (`off + &_app_rom + len = 0x20000 > 0x1ffff`): errADDRESS, no
external call. One byte less is accepted. The SAM build behaves the same for
its last 512 bytes. -/
theorem C17_last_chunk_rejected :
    setup_read k20 0x1dc00 = (DfuStatus.OK, 1024, BufPtr.addr 0x1fc00)
    ∧ k20.app_rom + 0x1dc00 + 1024 - 1 = k20.app_rom_end
    ∧ (finish_write k20 (Env.const 0 true 0) (State.idle k20 DfuValidation.OK) (zeros 1024)
        0x1dc00 1024).2 = DfuStatus.errADDRESS
    ∧ (finish_write k20 (Env.const 0 true 0) (State.idle k20 DfuValidation.OK) (zeros 1024)
        0x1dc00 1024).1.trace = []
    ∧ (finish_write k20 (Env.const 0 true 0) (State.idle k20 DfuValidation.PENDING) (zeros 1024)
        0x1dc00 1024).2 = DfuStatus.errADDRESS
    ∧ programmed (finish_write k20 (Env.const 0 true 0) (State.idle k20 DfuValidation.OK)
        (zeros 1023) 0x1dc00 1023).1.trace = [(0x1fc00, 1024)]
    ∧ setup_read sam4s 0x79e00 = (DfuStatus.OK, 512, BufPtr.addr 0x47fe00)
    ∧ (finish_write sam4s (Env.const 0 true 0) (State.idle sam4s DfuValidation.OK) (zeros 512)
        0x79e00 512).2 = DfuStatus.errADDRESS := by
  refine ⟨by decide, by decide, by decide, by decide, by decide, by decide, by decide,
    by decide⟩

/-- C18 as stated fails for lengths above the staging capacity. With `last = 1`
left by an earlier short chunk, `setup_write( 0, 1025 )` returns errADDRESS and
`last` is still 1, although this call accepted no short chunk. -/
theorem C18_counterexample :
    (setup_write k20 { State.idle k20 DfuValidation.UNKNOWN with last := 1 } 0 1025).2.1
        = DfuStatus.errADDRESS
    ∧ (setup_write k20 { State.idle k20 DfuValidation.UNKNOWN with last := 1 } 0 1025).1.last
        = 1 := by
  refine ⟨by decide, by decide⟩

/-- C18, amended. For every prior value of the terminal flag and every requested
length `len <= capacity`, `setup_write( 0, len )` returns OK, yields `staging`, and
leaves the flag set exactly when this call accepted a short chunk
(`len != chunk_size`), otherwise clear. A length above the capacity is rejected
before the reset, and the flag keeps its prior value. -/
theorem C18_offset_zero_restarts (t : Target) (s : State) (len : Nat) :
    (len ≤ t.USB_DFU_TRANSFER_SIZE →
      (setup_write t s 0 len).2.1 = DfuStatus.OK
      ∧ (setup_write t s 0 len).2.2 = some BufPtr.staging
      ∧ (setup_write t s 0 len).1.last = (if len ≠ t.USB_DFU_TRANSFER_SIZE then 1 else 0))
    ∧ (t.USB_DFU_TRANSFER_SIZE < len →
      (setup_write t s 0 len).2.1 = DfuStatus.errADDRESS
      ∧ (setup_write t s 0 len).1.last = s.last) := by
  refine ⟨fun hle => ?_, fun hgt => ?_⟩
  · have h1 : ¬ len > t.USB_DFU_TRANSFER_SIZE := by omega
    by_cases h4 : len = t.USB_DFU_TRANSFER_SIZE <;> simp [setup_write, h1, h4]
  · have h1 : len > t.USB_DFU_TRANSFER_SIZE := hgt
    simp [setup_write, h1]

/-- C18 at concrete inputs: a stale flag, then a full and a short chunk at offset 0. -/
theorem C18_offset_zero_restarts_witness :
    (setup_write k20 { State.idle k20 DfuValidation.OK with last := 1 } 0 1024).2.1
        = DfuStatus.OK
    ∧ (setup_write k20 { State.idle k20 DfuValidation.OK with last := 1 } 0 1024).1.last
        = (if 1024 ≠ k20.USB_DFU_TRANSFER_SIZE then 1 else 0)
    ∧ (setup_write k20 { State.idle k20 DfuValidation.OK with last := 1 } 0 7).1.last
        = (if 7 ≠ k20.USB_DFU_TRANSFER_SIZE then 1 else 0) :=
  ⟨((C18_offset_zero_restarts k20 { State.idle k20 DfuValidation.OK with last := 1 } 1024).1
      (by decide)).1,
   ((C18_offset_zero_restarts k20 { State.idle k20 DfuValidation.OK with last := 1 } 1024).1
      (by decide)).2.2,
   ((C18_offset_zero_restarts k20 { State.idle k20 DfuValidation.OK with last := 1 } 7).1
      (by decide)).2.2⟩

/-! ## The key check runs once -/

/-- The first-chunk key check: what it does to verification and to the trace. -/
theorem finish_write_key_check (t : Target) (env : Env) (s : State) (buf : List Nat)
    (len : Nat) (hlen : len ≠ 0) (hu : s.dfu_ctx.verified = DfuValidation.UNKNOWN) :
    (finish_write t env s buf 0 len).1.dfu_ctx.verified
        = (if env.Chip_validation s.trace buf = 0 then DfuValidation.OK
           else if env.Chip_validation s.trace buf = -1 then DfuValidation.FAILED
           else DfuValidation.PENDING)
    ∧ (finish_write t env s buf 0 len).1.trace.filter Event.isValidate
        = s.trace.filter Event.isValidate ++ [Event.validate buf] := by
  by_cases h0 : env.Chip_validation s.trace buf = 0
  · have hfw : finish_write t env s buf 0 len
        = bounds_then_flash t env
            { s with dfu_ctx := { verified := DfuValidation.OK, off := 0 },
                     trace := s.trace ++ [Event.validate buf] } buf 0 len := by
      simp [finish_write, hlen, hu, h0, State.log]
    have hf := bounds_then_flash_frame t env
      { s with dfu_ctx := { verified := DfuValidation.OK, off := 0 },
               trace := s.trace ++ [Event.validate buf] } buf 0 len
    rw [hfw, hf.1, hf.2]
    simp [h0, Event.isValidate]
  · by_cases h1 : env.Chip_validation s.trace buf = -1
    · simp [finish_write, hlen, hu, h1, State.log, Event.isValidate]
    · simp [finish_write, hlen, hu, h0, h1, State.log, Event.isValidate]

theorem key_check_not_unknown (v : Int) :
    (if v = 0 then DfuValidation.OK
     else if v = -1 then DfuValidation.FAILED
     else DfuValidation.PENDING) ≠ DfuValidation.UNKNOWN := by
  split_ifs <;> decide

/-- One callback either leaves verification and the number of validator calls as
they were, or leaves the Unknown state with exactly one validator call. -/
theorem step_validations (t : Target) (env : Env) (s : State) (c : Call) :
    ((step t env s c).1.dfu_ctx.verified = s.dfu_ctx.verified
      ∧ validations (step t env s c).1.trace = validations s.trace)
    ∨ (s.dfu_ctx.verified = DfuValidation.UNKNOWN
      ∧ (step t env s c).1.dfu_ctx.verified ≠ DfuValidation.UNKNOWN
      ∧ validations (step t env s c).1.trace = validations s.trace + 1) := by
  by_cases hu : s.dfu_ctx.verified = DfuValidation.UNKNOWN
  · cases c with
    | setup_read off => left; simp [step]
    | setup_write off len =>
      left
      have hw := setup_write_frame t s off len
      simp [step, hw.1, hw.2.1]
    | finish_write buf off len =>
      simp only [step]
      by_cases hlen : len = 0
      · left
        subst hlen
        rw [finish_write_zero]
        exact ⟨rfl, rfl⟩
      · by_cases hoff : off = 0
        · right
          subst hoff
          have hk := finish_write_key_check t env s buf len hlen hu
          refine ⟨hu, ?_, ?_⟩
          · rw [hk.1]
            exact key_check_not_unknown _
          · unfold validations
            rw [hk.2]
            simp
        · left
          rw [finish_write_no_check t env s buf off len hlen (fun hk => hoff hk.1)]
          have hf := bounds_then_flash_frame t env s buf off len
          exact ⟨by rw [hf.1], by unfold validations; rw [hf.2]⟩
  · left
    have hs := step_frame t env s c hu
    exact ⟨by rw [hs.1], by unfold validations; rw [hs.2]⟩

theorem run_validations (t : Target) (env : Env) (calls : List Call) :
    ∀ s : State,
      validations (run t env s calls).trace
        ≤ validations s.trace + (if s.dfu_ctx.verified = DfuValidation.UNKNOWN then 1 else 0) := by
  induction calls with
  | nil => intro s; simp [run]
  | cons c cs ih =>
    intro s
    simp only [run]
    have hr := ih (step t env s c).1
    rcases step_validations t env s c with ⟨hv, hn⟩ | ⟨hu, hne, hn⟩
    · rw [hv, hn] at hr
      exact hr
    · rw [hn, if_neg hne] at hr
      rw [if_pos hu]
      omega

/-- C19. `setup_write` never changes verification (`setup_read` has no access to the
state at all). `finish_write` changes it only in a call with `off == 0`,
`len != 0` and verification Unknown: the validator is then called once and
verification becomes Ok, Failed or Pending for the results 0, -1 and anything
else; in every other call verification is unchanged and the validator is not
called. So a verification other than Unknown is kept by every sequence of
callbacks, after `init_usb_bootloader` any sequence of callbacks calls the
validator at most once, and a later `finish_write` at offset 0 goes straight to
the bounds check. -/
theorem C19_verification_is_one_shot (t : Target) (env : Env) (s : State) :
    (∀ off len : Nat, (setup_write t s off len).1.dfu_ctx.verified = s.dfu_ctx.verified)
    ∧ (∀ (buf : List Nat) (len : Nat), len ≠ 0 → s.dfu_ctx.verified = DfuValidation.UNKNOWN →
        (finish_write t env s buf 0 len).1.dfu_ctx.verified
          = (if env.Chip_validation s.trace buf = 0 then DfuValidation.OK
             else if env.Chip_validation s.trace buf = -1 then DfuValidation.FAILED
             else DfuValidation.PENDING)
        ∧ (finish_write t env s buf 0 len).1.trace.filter Event.isValidate
          = s.trace.filter Event.isValidate ++ [Event.validate buf])
    ∧ (∀ (buf : List Nat) (off len : Nat),
        ¬ (off = 0 ∧ len ≠ 0 ∧ s.dfu_ctx.verified = DfuValidation.UNKNOWN) →
        (finish_write t env s buf off len).1.dfu_ctx.verified = s.dfu_ctx.verified
        ∧ (finish_write t env s buf off len).1.trace.filter Event.isValidate
          = s.trace.filter Event.isValidate)
    ∧ (∀ calls : List Call, s.dfu_ctx.verified ≠ DfuValidation.UNKNOWN →
        (run t env s calls).dfu_ctx.verified = s.dfu_ctx.verified
        ∧ validations (run t env s calls).trace = validations s.trace)
    ∧ (∀ calls : List Call,
        validations (run t env (init_usb_bootloader s) calls).trace ≤ validations s.trace + 1)
    ∧ (∀ (buf : List Nat) (len : Nat), len ≠ 0 → s.dfu_ctx.verified ≠ DfuValidation.UNKNOWN →
        finish_write t env s buf 0 len = bounds_then_flash t env s buf 0 len) := by
  refine ⟨fun off len => ?_, fun buf len hlen hu => ?_, fun buf off len h => ?_,
    fun calls hne => ?_, fun calls => ?_, fun buf len hlen hne => ?_⟩
  · rw [(setup_write_frame t s off len).1]
  · exact finish_write_key_check t env s buf len hlen hu
  · by_cases hlen : len = 0
    · subst hlen
      rw [finish_write_zero]
      exact ⟨rfl, rfl⟩
    · have hk : ¬ (off = 0 ∧ s.dfu_ctx.verified = DfuValidation.UNKNOWN) :=
        fun hk => h ⟨hk.1, hlen, hk.2⟩
      rw [finish_write_no_check t env s buf off len hlen hk]
      have hf := bounds_then_flash_frame t env s buf off len
      exact ⟨by rw [hf.1], hf.2⟩
  · have hr := run_frame t env calls s hne
    exact ⟨by rw [hr.1], by unfold validations; rw [hr.2]⟩
  · have hr := run_validations t env calls (init_usb_bootloader s)
    have hi : validations (init_usb_bootloader s).trace = validations s.trace := rfl
    rw [hi] at hr
    split_ifs at hr <;> omega
  · exact finish_write_no_check t env s buf 0 len hlen (fun hk => hne hk.2)

/-- C19 at a concrete session on the Kinetis build: the validator rejects the key,
the first chunk is sent again, and the validator has run once. -/
theorem C19_verification_is_one_shot_witness :
    validations (run k20 (Env.const (-1) true 0)
        (init_usb_bootloader (State.idle k20 DfuValidation.PENDING))
        [Call.setup_write 0 4, Call.finish_write [1, 2, 3, 4] 0 4,
         Call.setup_write 0 4, Call.finish_write [1, 2, 3, 4] 0 4]).trace
      ≤ validations (State.idle k20 DfuValidation.PENDING).trace + 1
    ∧ (finish_write k20 (Env.const (-1) true 0) (State.idle k20 DfuValidation.UNKNOWN)
        [1, 2, 3, 4] 0 4).1.dfu_ctx.verified
      = (if (Env.const (-1) true 0).Chip_validation [] [1, 2, 3, 4] = 0 then DfuValidation.OK
         else if (Env.const (-1) true 0).Chip_validation [] [1, 2, 3, 4] = -1
           then DfuValidation.FAILED
         else DfuValidation.PENDING) :=
  ⟨(C19_verification_is_one_shot k20 (Env.const (-1) true 0)
      (State.idle k20 DfuValidation.PENDING)).2.2.2.2.1 _,
   ((C19_verification_is_one_shot k20 (Env.const (-1) true 0)
      (State.idle k20 DfuValidation.UNKNOWN)).2.1 [1, 2, 3, 4] 4 (by decide) rfl).1⟩

/-! ## What a short chunk programs -/

set_option maxRecDepth 20000 in
/-- C20, evaluated where it fails. A session on the Kinetis build downloads a full
first chunk of 1024 bytes `0xaa` at offset 0 and then the short chunk `1, 2, 3` at
offset 1024. `setup_write` fills `staging` with `0xff`, and after the transport
copy `staging` starts `1, 2, 3, 0xff, 0xff, 0xff`; but `finish_write` copies only
`len = 3` bytes to the programmer's staging area, so the 1024 bytes programmed at
`0x2400` start `1, 2, 3, 0xaa, 0xaa, 0xaa`: bytes of the first chunk. The same
session on the SAM build, which programs from `staging`, programs
`1, 2, 3, 0xff, 0xff, 0xff`. -/
theorem C20_kinetis_short_chunk_keeps_stale_bytes :
    programmed
        (download_chunk k20 (Env.const 0 true 0)
          (download_chunk k20 (Env.const 0 true 0) (State.idle k20 DfuValidation.OK) 0
            (List.replicate 1024 0xaa)).1 1024 [1, 2, 3]).1.trace
      = [(0x2000, 1024), (0x2400, 1024)]
    ∧ (download_chunk k20 (Env.const 0 true 0)
          (download_chunk k20 (Env.const 0 true 0) (State.idle k20 DfuValidation.OK) 0
            (List.replicate 1024 0xaa)).1 1024 [1, 2, 3]).1.staging.take 6
      = [1, 2, 3, 0xff, 0xff, 0xff]
    ∧ (programmed_data
        (download_chunk k20 (Env.const 0 true 0)
          (download_chunk k20 (Env.const 0 true 0) (State.idle k20 DfuValidation.OK) 0
            (List.replicate 1024 0xaa)).1 1024 [1, 2, 3]).1.trace).map (List.take 6)
      = [[0xaa, 0xaa, 0xaa, 0xaa, 0xaa, 0xaa], [1, 2, 3, 0xaa, 0xaa, 0xaa]]
    ∧ (programmed_data
        (download_chunk sam4s (Env.const 0 true 0)
          (download_chunk sam4s (Env.const 0 true 0) (State.idle sam4s DfuValidation.OK) 0
            (List.replicate 512 0xaa)).1 512 [1, 2, 3]).1.trace).map (List.take 6)
      = [[0xaa, 0xaa, 0xaa, 0xaa, 0xaa, 0xaa], [1, 2, 3, 0xff, 0xff, 0xff]] := by
  refine ⟨by decide, by decide, by decide, by decide⟩

/-! ## main: the boot decision -/

/-- Masking with a single bit is non-zero exactly when that bit is set. -/
theorem and_two_pow_ne_zero (x i : Nat) : x &&& 2 ^ i ≠ 0 ↔ x.testBit i = true := by
  constructor
  · intro h
    obtain ⟨j, hj⟩ := Nat.ne_zero_implies_bit_true h
    rw [Nat.testBit_and, Nat.testBit_two_pow, Bool.and_eq_true, decide_eq_true_eq] at hj
    rw [hj.2]
    exact hj.1
  · intro h h0
    have hb : (x &&& 2 ^ i).testBit i = true := by
      rw [Nat.testBit_and, Nat.testBit_two_pow, h]
      simp
    rw [h0, Nat.zero_testBit] at hb
    exact Bool.false_ne_true hb

/-- `memcmp` returns 0 exactly when the first `n` bytes agree. -/
theorem memcmp_eq_zero (n : Nat) :
    ∀ a b : List Nat, n ≤ a.length → n ≤ b.length →
      (memcmp a b n = 0 ↔ a.take n = b.take n) := by
  induction n with
  | zero => intro a b _ _; simp [memcmp]
  | succ n ih =>
    intro a b ha hb
    cases a with
    | nil => simp at ha
    | cons x xs =>
      cases b with
      | nil => simp at hb
      | cons y ys =>
        have ha2 : n ≤ xs.length := by simpa using ha
        have hb2 : n ≤ ys.length := by simpa using hb
        by_cases hxy : x = y
        · subst hxy
          simp [memcmp, ih xs ys ha2 hb2]
        · have hne : (x : Int) - (y : Int) ≠ 0 := by omega
          simp [memcmp, hxy, hne]

/-- The `memcmp` test of `main` holds exactly when the marker equals the magic. -/
theorem marker_test (k : BootConsts) (hw : Hw)
    (hlen : k.sys_reset_to_loader_magic.length ≤ hw.backup.length) :
    decide (memcmp hw.backup k.sys_reset_to_loader_magic
        k.sys_reset_to_loader_magic.length = 0) = marker_is_magic k hw := by
  unfold marker_is_magic
  rw [decide_eq_decide, memcmp_eq_zero _ _ _ hlen (Nat.le_refl _), List.take_length]

/-- The condition of the `if` in `main` is the disjunction of the specification. -/
theorem update_mode_eq_spec (t : Target) (k : BootConsts) (hw : Hw)
    (hlen : k.sys_reset_to_loader_magic.length ≤ hw.backup.length) :
    update_mode t k hw = update_mode_spec t k hw := by
  have h6 : decide (hw.RCM_SRS0 &&& 0x40 ≠ 0) = hw.RCM_SRS0.testBit 6 := by
    rw [Bool.eq_iff_iff, decide_eq_true_eq]
    exact and_two_pow_ne_zero hw.RCM_SRS0 6
  have h5 : decide (hw.RCM_SRS0 &&& 0x20 ≠ 0) = hw.RCM_SRS0.testBit 5 := by
    rw [Bool.eq_iff_iff, decide_eq_true_eq]
    exact and_two_pow_ne_zero hw.RCM_SRS0 5
  have h1 : decide (hw.RCM_SRS1 &&& 0x02 ≠ 0) = hw.RCM_SRS1.testBit 1 := by
    rw [Bool.eq_iff_iff, decide_eq_true_eq]
    exact and_two_pow_ne_zero hw.RCM_SRS1 1
  unfold update_mode update_mode_spec pin_reset watchdog_reset core_lockup blank_flash
  cases t.chip
  · simp only [h6, h5, h1, marker_test k hw hlen]
  · simp only [marker_test k hw hlen, Bool.or_false]

theorem main_update (t : Target) (k : BootConsts) (hw : Hw) (h : update_mode t k hw = true) :
    main t k hw
      = { hw := { hw with backup := clear_marker t k hw.backup },
          effects := [Effect.uart_serial_setup, Effect.Chip_reset, Effect.Device_reset]
            ++ update_mode_steps t,
          outcome := Outcome.polling } := by
  simp [main, h]

theorem main_firmware (t : Target) (k : BootConsts) (hw : Hw)
    (h : update_mode t k hw = false) :
    main t k hw
      = { hw := hw,
          effects := [Effect.uart_serial_setup, Effect.Chip_reset, Effect.Device_reset]
            ++ arm_watchdog t k
            ++ [Effect.SCB_VTOR (t.app_rom % 2 ^ 32),
                Effect.ldr_sp (hw.word (t.app_rom % 2 ^ 32)),
                Effect.ldr_pc (hw.word ((t.app_rom % 2 ^ 32 + 4) % 2 ^ 32))],
          outcome := Outcome.jumped (hw.word (t.app_rom % 2 ^ 32))
            (hw.word ((t.app_rom % 2 ^ 32 + 4) % 2 ^ 32)) } := by
  simp [main, h]

/-- C12. When the marker span lies inside the backup register file, `main` selects
update mode (ends in the poll loop, without a jump) if and only if at least one of
these holds: external-pin reset flagged, watchdog time-out reset flagged,
core lock-up flagged (Kinetis), first word of the application region equal to
`0xffffffff`, marker equal to `sys_reset_to_loader_magic`. A blank first word
selects update mode whatever the registers and the marker hold, and when none of
the conditions holds `main` jumps to the application. -/
theorem C12_boot_decision (t : Target) (k : BootConsts) (hw : Hw)
    (hlen : k.sys_reset_to_loader_magic.length ≤ hw.backup.length) :
    ((main t k hw).outcome = Outcome.polling
      ↔ (pin_reset t k hw = true ∨ watchdog_reset t k hw = true ∨ core_lockup t hw = true
          ∨ hw.word t.app_rom = 0xffffffff
          ∨ hw.backup.take k.sys_reset_to_loader_magic.length = k.sys_reset_to_loader_magic))
    ∧ (hw.word t.app_rom = 0xffffffff → (main t k hw).outcome = Outcome.polling)
    ∧ (pin_reset t k hw = false → watchdog_reset t k hw = false → core_lockup t hw = false →
        hw.word t.app_rom ≠ 0xffffffff →
        hw.backup.take k.sys_reset_to_loader_magic.length ≠ k.sys_reset_to_loader_magic →
        (main t k hw).outcome
          = Outcome.jumped (hw.word (t.app_rom % 2 ^ 32))
              (hw.word ((t.app_rom % 2 ^ 32 + 4) % 2 ^ 32))) := by
  have hs := update_mode_eq_spec t k hw hlen
  have hspec : update_mode_spec t k hw = true
      ↔ (pin_reset t k hw = true ∨ watchdog_reset t k hw = true ∨ core_lockup t hw = true
          ∨ hw.word t.app_rom = 0xffffffff
          ∨ hw.backup.take k.sys_reset_to_loader_magic.length
              = k.sys_reset_to_loader_magic) := by
    simp [update_mode_spec, blank_flash, marker_is_magic, or_assoc]
  have hiff : (main t k hw).outcome = Outcome.polling ↔ update_mode t k hw = true := by
    cases hu : update_mode t k hw
    · rw [main_firmware t k hw hu]
      simp
    · rw [main_update t k hw hu]
      simp
  refine ⟨?_, ?_, ?_⟩
  · rw [hiff, hs, hspec]
  · intro hb
    rw [hiff, hs, hspec]
    exact Or.inr (Or.inr (Or.inr (Or.inl hb)))
  · intro h1 h2 h3 h4 h5
    have hu : update_mode t k hw = false := by
      rw [hs]
      cases hsp : update_mode_spec t k hw
      · rfl
      · rcases hspec.mp hsp with h | h | h | h | h
        · rw [h1] at h; exact absurd h (by decide)
        · rw [h2] at h; exact absurd h (by decide)
        · rw [h3] at h; exact absurd h (by decide)
        · exact absurd h h4
        · exact absurd h h5
    rw [main_firmware t k hw hu]

/-- C12 at concrete inputs on the Kinetis build: a programmed flash with no flag and
a zero marker boots the application; an erased flash stays in update mode. -/
theorem C12_boot_decision_witness :
    (main k20 consts (Hw.power_on 0x2000 (zeros 32))).outcome
      = Outcome.jumped 0x20002000 0x2411
    ∧ (main k20 consts
        { Hw.power_on 0x2000 (zeros 32) with word := fun _ => 0xffffffff }).outcome
      = Outcome.polling :=
  ⟨(C12_boot_decision k20 consts (Hw.power_on 0x2000 (zeros 32)) (by decide)).2.2
      (by decide) (by decide) (by decide) (by decide) (by decide),
   (C12_boot_decision k20 consts
      { Hw.power_on 0x2000 (zeros 32) with word := fun _ => 0xffffffff } (by decide)).2.1
      rfl⟩

/-! ## main: the marker is cleared -/

theorem gpbr_write_zero_getElem? (b : List Nat) (pos i : Nat) :
    (gpbr_write_zero b pos)[i]?
      = if 4 * pos ≤ i ∧ i < 4 * pos + 4 ∧ i < b.length then some 0 else b[i]? := by
  unfold gpbr_write_zero
  simp only [List.getElem?_set, List.length_set]
  by_cases hi : i < b.length
  · split_ifs <;> first | rfl | omega
  · have hn : b[i]? = none := List.getElem?_eq_none (by omega)
    rw [hn]
    split_ifs <;> first | rfl | omega

/-- The SAM loop after `m` rounds: the first `4 * m` bytes of the register file are
zero, the others are untouched. -/
theorem gpbr_loop (m : Nat) :
    ∀ b : List Nat,
      ((List.range m).foldl gpbr_write_zero b).length = b.length
      ∧ ∀ i : Nat, ((List.range m).foldl gpbr_write_zero b)[i]?
          = if i < 4 * m ∧ i < b.length then some 0 else b[i]? := by
  induction m with
  | zero => intro b; simp
  | succ m ih =>
    intro b
    rw [List.range_succ, List.foldl_append]
    simp only [List.foldl_cons, List.foldl_nil]
    have h := ih b
    refine ⟨?_, fun i => ?_⟩
    · unfold gpbr_write_zero
      simp only [List.length_set]
      exact h.1
    · rw [gpbr_write_zero_getElem?, h.1, h.2 i]
      split_ifs <;> first | rfl | omega

/-- Both variants leave every byte of the marker span zero. -/
theorem clear_marker_zeroed (t : Target) (k : BootConsts) (b : List Nat)
    (hlen : k.sys_reset_to_loader_magic.length ≤ b.length) :
    (clear_marker t k b).take k.sys_reset_to_loader_magic.length
      = List.replicate k.sys_reset_to_loader_magic.length 0 := by
  unfold clear_marker
  cases t.chip
  · exact List.take_left' (List.length_replicate _ _)
  · apply List.ext_getElem?
    intro i
    rw [List.getElem?_take, List.getElem?_replicate,
      (gpbr_loop (k.sys_reset_to_loader_magic.length / 4 + 1) b).2 i]
    split_ifs <;> first | rfl | omega

theorem clear_marker_length (t : Target) (k : BootConsts) (b : List Nat)
    (hlen : k.sys_reset_to_loader_magic.length ≤ b.length) :
    (clear_marker t k b).length = b.length := by
  unfold clear_marker
  cases t.chip
  · simp only [List.length_append, List.length_replicate, List.length_drop]
    omega
  · exact (gpbr_loop _ b).1

/-- C13. Whenever the boot decision selects update mode, for whichever reason,
`main` ends in the poll loop without a jump, and afterwards every byte of the
marker span (the first `sizeof(sys_reset_to_loader_magic)` bytes of the backup
register file) is zero, in both variants and for every size of the pattern that
fits the register file. Hence, for a pattern that is not all zero, a run of `main`
on that marker with no reset-cause flag and a non-blank first application word
jumps to the application. -/
theorem C13_marker_cleared_once (t : Target) (k : BootConsts) (hw : Hw)
    (hlen : k.sys_reset_to_loader_magic.length ≤ hw.backup.length)
    (hsel : update_mode t k hw = true) :
    (main t k hw).outcome = Outcome.polling
    ∧ (main t k hw).hw.backup.take k.sys_reset_to_loader_magic.length
        = List.replicate k.sys_reset_to_loader_magic.length 0
    ∧ (∀ i : Nat, i < k.sys_reset_to_loader_magic.length →
        (main t k hw).hw.backup[i]? = some 0)
    ∧ (k.sys_reset_to_loader_magic ≠ List.replicate k.sys_reset_to_loader_magic.length 0 →
        ∀ hw2 : Hw, hw2.backup = (main t k hw).hw.backup →
          pin_reset t k hw2 = false → watchdog_reset t k hw2 = false →
          core_lockup t hw2 = false → hw2.word t.app_rom ≠ 0xffffffff →
          (main t k hw2).outcome
            = Outcome.jumped (hw2.word (t.app_rom % 2 ^ 32))
                (hw2.word ((t.app_rom % 2 ^ 32 + 4) % 2 ^ 32))) := by
  have hz := clear_marker_zeroed t k hw.backup hlen
  have hl := clear_marker_length t k hw.backup hlen
  rw [main_update t k hw hsel]
  refine ⟨rfl, hz, fun i hi => ?_, fun hmagic hw2 hb h1 h2 h3 h4 => ?_⟩
  · have h := congrArg (fun l : List Nat => l[i]?) hz
    simp only [List.getElem?_take, List.getElem?_replicate, hi, if_true] at h
    exact h
  · have hb2 : hw2.backup = clear_marker t k hw.backup := hb
    have hlen2 : k.sys_reset_to_loader_magic.length ≤ hw2.backup.length := by
      rw [hb2, hl]; exact hlen
    have hu : update_mode t k hw2 = false := by
      rw [update_mode_eq_spec t k hw2 hlen2]
      have hm : marker_is_magic k hw2 = false := by
        unfold marker_is_magic
        rw [hb2, hz, decide_eq_false_iff_not]
        exact fun h => hmagic h.symm
      have hbl : blank_flash t hw2 = false := by
        unfold blank_flash
        rw [decide_eq_false_iff_not]
        exact h4
      simp [update_mode_spec, h1, h2, h3, hm, hbl]
    rw [main_firmware t k hw2 hu]

/-- C13 at a concrete input on the SAM build: the application has written the magic
pattern, `main` clears it, and the next plain reset boots the application. -/
theorem C13_marker_cleared_once_witness :
    (main sam4s consts
        (Hw.power_on 0x406000 (consts.sys_reset_to_loader_magic ++ List.replicate 10 7))).outcome
      = Outcome.polling
    ∧ (main sam4s consts
        (Hw.power_on 0x406000
          (consts.sys_reset_to_loader_magic ++ List.replicate 10 7))).hw.backup.take
          consts.sys_reset_to_loader_magic.length
      = List.replicate consts.sys_reset_to_loader_magic.length 0
    ∧ (main sam4s consts
        (Hw.power_on 0x406000
          (main sam4s consts
            (Hw.power_on 0x406000
              (consts.sys_reset_to_loader_magic ++ List.replicate 10 7))).hw.backup)).outcome
      = Outcome.jumped 0x20002000 0x2411 :=
  have h := C13_marker_cleared_once sam4s consts
    (Hw.power_on 0x406000 (consts.sys_reset_to_loader_magic ++ List.replicate 10 7))
    (by decide) (by decide)
  ⟨h.1, h.2.1, h.2.2.2 (by decide) (Hw.power_on 0x406000 _) rfl (by decide) (by decide)
    (by decide) (by decide)⟩

/-! ## main: the application branch -/

/-- C14. With no reset-cause flag, a non-blank first application word and a marker
different from the magic pattern, the effects of `main` are exactly these, in
this order. The early set-up calls. Then the watchdog is armed: on Kinetis by the
two unlock writes, `WDOG_TOVALH = 0`, `WDOG_TOVALL = 1000` and the set of the
enable bit `WDOG_STCTRLH_WDOGEN`; on SAM by one write of `WDT_MR` with counter
`1000000 / WDT_TICK_US`, delta `WDT_MAX_VALUE = 4095`, the debug-halt and
idle-halt flags, the reset-enable flag (the fault-interrupt flag instead in a
`DEBUG` and `JLINK` build), and without the disable flag. Then
`SCB_VTOR = &_app_rom`. Then the load of the stack pointer from the word at
`&_app_rom + 0` and of the program counter from the word at `&_app_rom + 4`.
Nothing follows the jump: `Chip_setup`, `Device_setup`, `flash_prepare_flashing`
and `dfu_usb_init` do not occur, the poll loop is not entered, and the hardware
state, the marker included, is as before. -/
theorem C14_application_branch (t : Target) (k : BootConsts) (hw : Hw)
    (hlen : k.sys_reset_to_loader_magic.length ≤ hw.backup.length)
    (haddr : t.app_rom + 4 < 2 ^ 32)
    (h1 : pin_reset t k hw = false) (h2 : watchdog_reset t k hw = false)
    (h3 : core_lockup t hw = false) (h4 : hw.word t.app_rom ≠ 0xffffffff)
    (h5 : hw.backup.take k.sys_reset_to_loader_magic.length ≠ k.sys_reset_to_loader_magic) :
    (t.chip = Chip.kinetis →
      (main t k hw).effects
        = [Effect.uart_serial_setup, Effect.Chip_reset, Effect.Device_reset,
           Effect.WDOG_UNLOCK_SEQ1, Effect.WDOG_UNLOCK_SEQ2, Effect.WDOG_TOVALH 0,
           Effect.WDOG_TOVALL 1000, Effect.WDOG_STCTRLH_WDOGEN,
           Effect.SCB_VTOR t.app_rom, Effect.ldr_sp (hw.word t.app_rom),
           Effect.ldr_pc (hw.word (t.app_rom + 4))])
    ∧ (t.chip = Chip.sam →
      (main t k hw).effects
        = [Effect.uart_serial_setup, Effect.Chip_reset, Effect.Device_reset,
           Effect.WDT_MR
             { WDV := 1000000 / (128 * 1000000 / k.BOARD_FREQ_SLCK_XTAL), WDD := 4095,
               WDFIEN := k.DEBUG_JLINK, WDRSTEN := !k.DEBUG_JLINK,
               WDDBGHLT := true, WDIDLEHLT := true, WDDIS := false },
           Effect.SCB_VTOR t.app_rom, Effect.ldr_sp (hw.word t.app_rom),
           Effect.ldr_pc (hw.word (t.app_rom + 4))])
    ∧ (main t k hw).outcome = Outcome.jumped (hw.word t.app_rom) (hw.word (t.app_rom + 4))
    ∧ (main t k hw).outcome ≠ Outcome.polling
    ∧ (main t k hw).hw.backup = hw.backup
    ∧ (main t k hw).hw.RCM_SRS0 = hw.RCM_SRS0
    ∧ (main t k hw).hw.RCM_SRS1 = hw.RCM_SRS1
    ∧ (main t k hw).hw.REG_RSTC_SR = hw.REG_RSTC_SR
    ∧ Effect.Chip_setup ∉ (main t k hw).effects
    ∧ Effect.Device_setup ∉ (main t k hw).effects
    ∧ Effect.flash_prepare_flashing ∉ (main t k hw).effects
    ∧ Effect.dfu_usb_init ∉ (main t k hw).effects := by
  have hm : marker_is_magic k hw = false := by
    unfold marker_is_magic
    rw [decide_eq_false_iff_not]
    exact h5
  have hbl : blank_flash t hw = false := by
    unfold blank_flash
    rw [decide_eq_false_iff_not]
    exact h4
  have hu : update_mode t k hw = false := by
    rw [update_mode_eq_spec t k hw hlen]
    simp [update_mode_spec, h1, h2, h3, hm, hbl]
  have ha : t.app_rom % 2 ^ 32 = t.app_rom := Nat.mod_eq_of_lt (by omega)
  have ha4 : (t.app_rom + 4) % 2 ^ 32 = t.app_rom + 4 := Nat.mod_eq_of_lt haddr
  rw [main_firmware t k hw hu, ha, ha4]
  refine ⟨fun hc => ?_, fun hc => ?_, rfl, by simp, rfl, rfl, rfl, rfl, ?_, ?_, ?_, ?_⟩
  · simp [arm_watchdog, hc]
  · cases hd : k.DEBUG_JLINK <;>
      simp [arm_watchdog, hc, hd, WDT_TICK_US, WDT_MAX_VALUE]
  all_goals
    cases hc : t.chip <;> cases hd : k.DEBUG_JLINK <;> simp [arm_watchdog, hc, hd]

/-- C14 at concrete inputs: the Kinetis build and the SAM build, each with a
programmed flash, no flag and a zero marker. -/
theorem C14_application_branch_witness :
    (main k20 consts (Hw.power_on 0x2000 (zeros 32))).effects
      = [Effect.uart_serial_setup, Effect.Chip_reset, Effect.Device_reset,
         Effect.WDOG_UNLOCK_SEQ1, Effect.WDOG_UNLOCK_SEQ2, Effect.WDOG_TOVALH 0,
         Effect.WDOG_TOVALL 1000, Effect.WDOG_STCTRLH_WDOGEN,
         Effect.SCB_VTOR k20.app_rom,
         Effect.ldr_sp ((Hw.power_on 0x2000 (zeros 32)).word k20.app_rom),
         Effect.ldr_pc ((Hw.power_on 0x2000 (zeros 32)).word (k20.app_rom + 4))]
    ∧ (main sam4s consts (Hw.power_on 0x406000 (zeros 32))).effects
      = [Effect.uart_serial_setup, Effect.Chip_reset, Effect.Device_reset,
         Effect.WDT_MR
           { WDV := 1000000 / (128 * 1000000 / consts.BOARD_FREQ_SLCK_XTAL), WDD := 4095,
             WDFIEN := consts.DEBUG_JLINK, WDRSTEN := !consts.DEBUG_JLINK,
             WDDBGHLT := true, WDIDLEHLT := true, WDDIS := false },
         Effect.SCB_VTOR sam4s.app_rom,
         Effect.ldr_sp ((Hw.power_on 0x406000 (zeros 32)).word sam4s.app_rom),
         Effect.ldr_pc ((Hw.power_on 0x406000 (zeros 32)).word (sam4s.app_rom + 4))]
    ∧ (main sam4s consts (Hw.power_on 0x406000 (zeros 32))).outcome
      = Outcome.jumped ((Hw.power_on 0x406000 (zeros 32)).word sam4s.app_rom)
          ((Hw.power_on 0x406000 (zeros 32)).word (sam4s.app_rom + 4))
    ∧ (main k20 consts (Hw.power_on 0x2000 (zeros 32))).hw.backup
      = (Hw.power_on 0x2000 (zeros 32)).backup :=
  ⟨(C14_application_branch k20 consts (Hw.power_on 0x2000 (zeros 32))
      (by decide) (by decide) (by decide) (by decide) (by decide) (by decide) (by decide)).1
      rfl,
   (C14_application_branch sam4s consts (Hw.power_on 0x406000 (zeros 32))
      (by decide) (by decide) (by decide) (by decide) (by decide) (by decide) (by decide)).2.1
      rfl,
   (C14_application_branch sam4s consts (Hw.power_on 0x406000 (zeros 32))
      (by decide) (by decide) (by decide) (by decide) (by decide) (by decide)
      (by decide)).2.2.1,
   (C14_application_branch k20 consts (Hw.power_on 0x2000 (zeros 32))
      (by decide) (by decide) (by decide) (by decide) (by decide) (by decide)
      (by decide)).2.2.2.2.1⟩

end Bootloader
